import Mathlib

/-!
Shallow embedding of the sv_patch transactional source-tree patcher
(`tools/sv_patch/sv_patch-(DeepSeekV1)_multiline_atomic_v3.py`).

Modelling conventions, stated once:
* Paths are POSIX strings; the host is modelled as POSIX (`os.sep = "/"`,
  `os.path.isabs s = s.startsWith "/"`).
* The on-disk tree is a finite map from relative path to UTF-8 text plus a
  set of directory paths.  Files under `data/history/` (manifest, backups,
  patch diffs, jsonl indices) are modelled as structured fields of the run
  result instead of raw disk bytes; the always-rewritten summary file
  `data/index/changes-summary.md` is modelled as a real disk write because
  claims depend on it.
* SHA-256 metadata, unified-diff text and the wall-clock regex timeout are
  not modelled: no verified claim depends on hash values, on diff bodies or
  on real time.  The `changed = -1` timeout branches of the engine are kept
  but unreachable in the model.
* Python regular expressions are modelled on the fragment the claims
  exercise: multiline anchors `^` and `$`, the wildcard `.`, `\d`, and
  literal characters (a backslash escapes the following character).
-/

namespace SvPatch

/-- Python whitespace for `str.strip` and the regex class `\s`. -/
def isPySpace (c : Char) : Bool :=
  c = ' ' || c = '\t' || c = '\n' || c = '\r' || c = '\x0b' || c = '\x0c'

/-- Python `str.strip()` on both ends. -/
def pyStrip (s : String) : String :=
  String.mk (((s.data.dropWhile isPySpace).reverse.dropWhile isPySpace).reverse)

/-- Python `str.upper()` (ASCII fragment, as used for op names). -/
def pyUpper (s : String) : String := String.mk (s.data.map Char.toUpper)

/-- Python `str.lower()` (ASCII fragment, as used for option keys). -/
def pyLower (s : String) : String := String.mk (s.data.map Char.toLower)

/-- Prefix test on strings (`str.startswith`). -/
def strStartsWith (s pre : String) : Bool := pre.data.isPrefixOf s.data

/-- Suffix test on strings (`str.endswith`). -/
def strEndsWith (s suf : String) : Bool := suf.data.isSuffixOf s.data

/-- Split a character list at every occurrence of `c`. -/
def splitOnCharAux (c : Char) : List Char → List Char → List (List Char)
  | [], buf => [buf.reverse]
  | x :: rest, buf =>
    if x = c then buf.reverse :: splitOnCharAux c rest []
    else splitOnCharAux c rest (x :: buf)

/-- `s.split("/")`-style split on a single character. -/
def strSplitChar (s : String) (c : Char) : List String :=
  (splitOnCharAux c s.data []).map String.mk

/-- Join strings with a separator (`sep.join(parts)`). -/
def strJoin (sep : String) : List String → String
  | [] => ""
  | [x] => x
  | x :: rest => x ++ sep ++ strJoin sep rest

/-- `s.replace("\\", "/")`: single-character replacement. -/
def backslashToSlash (s : String) : String :=
  String.mk (s.data.map (fun c => if c = '\\' then '/' else c))

/-- Lexicographic comparison on strings by code point (Python `<` on `str`
restricted to the values the claims exercise). -/
def strLtB : List Char → List Char → Bool
  | [], [] => false
  | [], _ :: _ => true
  | _ :: _, [] => false
  | a :: as, b :: bs =>
    if a.toNat < b.toNat then true
    else if b.toNat < a.toNat then false
    else strLtB as bs

/-- UTF-8 byte length, Python `len(text.encode("utf-8"))`. -/
def utf8Len (s : String) : Nat := s.utf8ByteSize

/-- Python `bool` rendered by `str.format`, as the summary writer prints it. -/
def pyBool (b : Bool) : String := if b then "True" else "False"

/-- Association list used for `dict` values; insertion order is preserved and
assignment to an existing key updates in place (CPython dict semantics). -/
abbrev Assoc (α : Type) := List (String × α)

namespace Assoc

def lookupA {α : Type} (m : Assoc α) (k : String) : Option α :=
  match m with
  | [] => none
  | (k', v) :: rest => if k' = k then some v else lookupA rest k

def setA {α : Type} (m : Assoc α) (k : String) (v : α) : Assoc α :=
  match m with
  | [] => [(k, v)]
  | (k', v') :: rest => if k' = k then (k, v) :: rest else (k', v') :: setA rest k v

def eraseA {α : Type} (m : Assoc α) (k : String) : Assoc α :=
  m.filter (fun kv => kv.1 ≠ k)

def keys {α : Type} (m : Assoc α) : List String := m.map (·.1)

/-- Python `dict.setdefault(k, v)`. -/
def setdefault {α : Type} (m : Assoc α) (k : String) (v : α) : Assoc α :=
  if (lookupA m k).isSome then m else m ++ [(k, v)]

/-- Update the value at `k` with `f` when present (models mutating
`d[k].update(...)` / attribute writes on an existing entry). -/
def modify {α : Type} (m : Assoc α) (k : String) (f : α → α) : Assoc α :=
  m.map (fun kv => if kv.1 = k then (kv.1, f kv.2) else kv)

end Assoc

open Assoc

/-! ## Path normalization and the path guard -/

/-- Component resolution of `posixpath.normpath`: drops `""` and `"."`,
resolves `".."` (for an absolute path a leading `".."` is dropped at the
root; for a relative path it is kept). -/
def normParts (isAbs : Bool) : List String → List String → List String
  | [], acc => acc.reverse
  | c :: rest, acc =>
    if c = "" || c = "." then normParts isAbs rest acc
    else if c = ".." then
      match acc with
      | t :: acc' =>
        if t = ".." then normParts isAbs rest (".." :: t :: acc')
        else normParts isAbs rest acc'
      | [] => if isAbs then normParts isAbs rest [] else normParts isAbs rest [".."]
    else normParts isAbs rest (c :: acc)

/-- `posixpath.normpath` (single-slash model; the `//`-prefix special case is
outside the modelled fragment). -/
def pyNormpath (s : String) : String :=
  if s = "" then "."
  else
    let isAbs := strStartsWith s "/"
    let comps := normParts isAbs (strSplitChar s '/') []
    let body := strJoin "/" comps
    if isAbs then "/" ++ body
    else if body = "" then "." else body

/-- `rel_norm` from the source: strip, then `normpath`, then replace `\` by
`/`; empty input stays empty. -/
def rel_norm (path : String) : String :=
  let s := pyStrip path
  if s = "" then "" else backslashToSlash (pyNormpath s)

/-- The drive-qualification test `re.match(r"^[A-Za-z]:", raw)`. -/
def driveQualified (s : String) : Bool :=
  match s.data with
  | c :: ':' :: _ => (c.isUpper || c.isLower)
  | _ => false

/-- Resolution of `os.path.abspath (os.path.join root p)` for a normalized
absolute root (given by its components) and a relative `p`: normalize the
concatenated component list as an absolute path. -/
def resolveUnder (rootParts : List String) (p : String) : List String :=
  normParts true (rootParts ++ strSplitChar (pyNormpath p) '/') []

/-- `is_path_safe` from the source.  The root is given by the components of
its absolute normalized form; `os.path.commonpath [root, cand] = root` is
the component-wise prefix test. -/
def is_path_safe (rel_path : String) (rootParts : List String) : Bool :=
  let raw := pyStrip rel_path
  if raw = "" then false
  else if strStartsWith raw "/" then false
  else if driveQualified raw then false
  else rootParts.isPrefixOf (resolveUnder rootParts raw)

/-- Python `str.rstrip("/")`. -/
def rstripSlash (s : String) : String :=
  String.mk ((s.data.reverse.dropWhile (· = '/')).reverse)

/-- `is_path_allowed` from the source: safe and matched by some allow-list
prefix. -/
def is_path_allowed (rel_path : String) (allow : List String) (rootParts : List String) : Bool :=
  if ¬ is_path_safe rel_path rootParts then false
  else
    let rp := rel_norm rel_path
    allow.any (fun p0 =>
      let p := rel_norm p0
      p = "." || p = "" || rp = p || strStartsWith rp (rstripSlash p ++ "/"))

/-! ## DSL field splitter and single-line parser -/

/-- Core of `_split_rw_fields`: split on unescaped `|`, where `\|` yields a
literal pipe and `\\` a literal backslash; any other character (including a
backslash not followed by `|` or `\`) passes through. -/
def splitCore : List Char → List Char → List (List Char)
  | [], buf => [buf.reverse]
  | '\\' :: '|' :: rest, buf => splitCore rest ('|' :: buf)
  | '\\' :: '\\' :: rest, buf => splitCore rest ('\\' :: buf)
  | '|' :: rest, buf => buf.reverse :: splitCore rest []
  | c :: rest, buf => splitCore rest (c :: buf)

/-- `_split_rw_fields` from the source: split and strip each field. -/
def split_rw_fields (line : String) : List String :=
  (splitCore line.data []).map (fun l => pyStrip (String.mk l))

/-- The option-key test `^[A-Za-z_][A-Za-z0-9_-]*\s*=` of the line parser. -/
def optKeyMatch (item : String) : Bool :=
  match item.data with
  | [] => false
  | c :: rest =>
    if c.isAlpha || c = '_' then
      let rest' := rest.dropWhile (fun d => d.isAlphanum || d = '_' || d = '-')
      let rest'' := rest'.dropWhile isPySpace
      rest''.head? = some '='
    else false

/-- Python `item.split("=", 1)[0]`. -/
def beforeFirstEq (item : String) : String :=
  String.mk (item.data.takeWhile (· ≠ '='))

/-- Python `v.split("=", 1)[1]` when `=` occurs (used for option values). -/
def afterFirstEq (item : String) : String :=
  String.mk ((item.data.dropWhile (· ≠ '=')).drop 1)

/-- Classification of a trailing field as option vs positional argument, as
in `parse_rw_line`: the key regex must match, the part before the first `=`
must contain no space, and the field must not be double-quoted. -/
def isOptField (item : String) : Bool :=
  optKeyMatch item
    && ¬ (beforeFirstEq item).data.contains ' '
    && ¬ (strStartsWith item "\"" && strEndsWith item "\"")

/-- `parse_rw_line` from the source: strip the line, ignore blanks and `#`
comments, split the fields, and classify the tail fields into positional
args and `key=value` options. -/
def parse_rw_line (line : String) : Option (String × String × List String × Assoc String) :=
  let line := pyStrip line
  if line = "" || strStartsWith line "#" then none
  else
    let parts := split_rw_fields line
    if parts.length < 2 then none
    else
      let op := pyUpper (pyStrip (parts.headD ""))
      let file := pyStrip (parts.getD 1 "")
      let rest := parts.drop 2
      let step := fun (acc : List String × Assoc String) (item : String) =>
        if isOptField item then
          (acc.1, acc.2.setA (pyStrip (beforeFirstEq item)) (pyStrip (afterFirstEq item)))
        else
          (acc.1 ++ [item], acc.2)
      let (args, opts) := rest.foldl step ([], [])
      some (op, file, args, opts)

/-- Parsed command record (`RWCommand` in the source). -/
structure RWCommand where
  op : String
  file : String
  args : List String
  opts : Assoc String
  raw : String
  line_no : Nat
deriving DecidableEq, Repr, Inhabited

/-- Build an `RWCommand` from a single header line, as `load_changes` does
for single-line commands (multiline/heredoc folding is not needed by the
verified claims). -/
def mkCmd (line_no : Nat) (raw : String) : Option RWCommand :=
  (parse_rw_line raw).map (fun x => ⟨x.1, x.2.1, x.2.2.1, x.2.2.2, raw, line_no⟩)

/-! ## Option helpers and command canonicalization -/

/-- `_opt_get`: exact key lookup, then first case-insensitive match. -/
def opt_get (opts : Assoc String) (key : String) : Option String :=
  match opts.lookupA key with
  | some v => some v
  | none =>
    let kl := pyLower key
    (opts.find? (fun kv => pyLower kv.1 = kl)).map (·.2)

/-- `_opt_bool` truthiness set from the source. -/
def opt_bool (opts : Assoc String) (key : String) (default : Bool) : Bool :=
  match opt_get opts key with
  | none => default
  | some v =>
    let v := pyLower (pyStrip v)
    v = "1" || v = "true" || v = "yes" || v = "y" || v = "on"

/-- Python `int(...)` on a string: optional sign and decimal digits after
stripping (the underscore-separator extension is outside the fragment). -/
def pyInt? (s : String) : Option Int :=
  let t := pyStrip s
  let core : List Char → Option Nat := fun ds =>
    if ds = [] || ¬ ds.all Char.isDigit then none
    else some (ds.foldl (fun n d => n * 10 + (d.toNat - '0'.toNat)) 0)
  match t.data with
  | '-' :: ds => (core ds).map (fun n => -(n : Int))
  | '+' :: ds => (core ds).map (fun n => (n : Int))
  | ds => (core ds).map (fun n => (n : Int))

/-- `_opt_int` from the source. -/
def opt_int (opts : Assoc String) (key : String) (default : Int) : Int :=
  match opt_get opts key with
  | none => default
  | some v => (pyInt? v).getD default

/-- `_canonicalize_command`: rewrite aliases and the `PATCH_REGEX` meta-op
into canonical ops; returns the (possibly rewritten) command and an error
message when canonicalization alone fails. -/
def canonicalize_command (cmd : RWCommand) : RWCommand × Option String :=
  let op := cmd.op
  if op = "ASSERT_EXISTS" then ({ cmd with op := "ASSERT_FILE_EXISTS" }, none)
  else if op = "ASSERT_NOT_EXISTS" then ({ cmd with op := "ASSERT_FILE_NOT_EXISTS" }, none)
  else if op = "ASSERT_MATCH" then ({ cmd with op := "ASSERT_REGEX" }, none)
  else if op = "ASSERT_NOT_MATCH" then ({ cmd with op := "ASSERT_NOT_REGEX" }, none)
  else if op = "ASSERT_COUNT" then ({ cmd with op := "ASSERT_REGEX_COUNT" }, none)
  else if op = "SCAN" then ({ cmd with op := "SCAN_FILE" }, none)
  else if op = "PATCH_REGEX" then
    let mode := pyLower (pyStrip ((opt_get cmd.opts "MODE").getD "replace"))
    let first := opt_bool cmd.opts "FIRST" false
    let pattern := cmd.args.getD 0 ""
    let repl := cmd.args.getD 1 ""
    if mode = "replace" then
      if cmd.args.length < 2 then
        (cmd, some "INVALID_ARGS PATCH_REGEX MODE=replace requires pattern and replacement")
      else
        let newOp := if first then "REPLACE_REGEX_FIRST" else "REPLACE_REGEX"
        ({ cmd with op := newOp, args := [pattern, repl] }, none)
    else if mode = "insert_before" then
      if cmd.args.length < 2 then
        (cmd, some "INVALID_ARGS PATCH_REGEX MODE=insert_before requires regex and insert text")
      else ({ cmd with op := "INSERT_BEFORE_REGEX", args := [pattern, repl] }, none)
    else if mode = "insert_after" then
      if cmd.args.length < 2 then
        (cmd, some "INVALID_ARGS PATCH_REGEX MODE=insert_after requires regex and insert text")
      else ({ cmd with op := "INSERT_AFTER_REGEX", args := [pattern, repl] }, none)
    else if mode = "delete" then
      if cmd.args.length < 1 then
        (cmd, some "INVALID_ARGS PATCH_REGEX MODE=delete requires regex")
      else ({ cmd with op := "DELETE_REGEX", args := [pattern] }, none)
    else (cmd, some ("INVALID_ARGS unknown PATCH_REGEX MODE " ++ "'" ++ mode ++ "'"))
  else (cmd, none)

/-- Minimum positional-arg counts (`COMMAND_MIN_ARGS`). -/
def command_min_args (op : String) : Option Nat :=
  if op = "ASSERT_FILE_EXISTS" then some 0
  else if op = "ASSERT_FILE_NOT_EXISTS" then some 0
  else if op = "ASSERT_REGEX" then some 1
  else if op = "ASSERT_NOT_REGEX" then some 1
  else if op = "ASSERT_REGEX_COUNT" then some 2
  else if op = "ASSERT_EXISTS" then some 0
  else if op = "ASSERT_NOT_EXISTS" then some 0
  else if op = "ASSERT_MATCH" then some 1
  else if op = "ASSERT_NOT_MATCH" then some 1
  else if op = "ASSERT_COUNT" then some 2
  else if op = "SCAN_FILE" then some 1
  else if op = "SCAN" then some 1
  else if op = "CREATE_FILE" then some 0
  else if op = "WRITE_FILE" then some 1
  else if op = "UPSERT_FILE" then some 1
  else if op = "PATCH_REGEX" then some 1
  else if op = "INSERT_BEFORE_REGEX" then some 2
  else if op = "INSERT_AFTER_REGEX" then some 2
  else if op = "REPLACE_REGEX" then some 2
  else if op = "REPLACE_REGEX_FIRST" then some 2
  else if op = "DELETE_REGEX" then some 1
  else if op = "DELETE_FILE" then some 0
  else if op = "MOVE_FILE" then some 1
  else if op = "COPY_FILE" then some 1
  else if op = "REPLACE_BLOCK" then some 3
  else none

/-- Minimal JSON-string decode for `_json_unquote`: a double-quoted field is
decoded (standard escapes; `\uXXXX` is outside the fragment the claims
exercise), anything else is taken verbatim. -/
def jsonUnescape : List Char → List Char
  | [] => []
  | '\\' :: 'n' :: rest => '\n' :: jsonUnescape rest
  | '\\' :: 't' :: rest => '\t' :: jsonUnescape rest
  | '\\' :: 'r' :: rest => '\r' :: jsonUnescape rest
  | '\\' :: 'b' :: rest => '\x08' :: jsonUnescape rest
  | '\\' :: 'f' :: rest => '\x0c' :: jsonUnescape rest
  | '\\' :: '"' :: rest => '"' :: jsonUnescape rest
  | '\\' :: '\\' :: rest => '\\' :: jsonUnescape rest
  | '\\' :: '/' :: rest => '/' :: jsonUnescape rest
  | c :: rest => c :: jsonUnescape rest

/-- `_json_unquote` from the source. -/
def json_unquote (s : String) : String :=
  let s := pyStrip s
  if strStartsWith s "\"" && strEndsWith s "\"" && s.length ≥ 2 then
    String.mk (jsonUnescape ((s.data.drop 1).dropLast))
  else s

/-! ## Regex model

A model of the fragment of Python `re` the engine exercises, always compiled
with `re.MULTILINE` (see `_normalize_regex_pattern`): `^`/`$` match at line
boundaries, `.` matches any character except newline, `\d` matches a digit,
a backslash escapes the following character, and other characters are
literals.  Patterns are stripped before compilation, as the source does. -/

inductive RItem where
  | bol
  | eol
  | dot
  | digit
  | lit (c : Char)
deriving DecidableEq, Repr

/-- Pattern compilation for the modelled fragment. -/
def parsePat : List Char → List RItem
  | [] => []
  | '^' :: rest => .bol :: parsePat rest
  | '$' :: rest => .eol :: parsePat rest
  | '.' :: rest => .dot :: parsePat rest
  | '\\' :: 'd' :: rest => .digit :: parsePat rest
  | '\\' :: c :: rest => .lit c :: parsePat rest
  | c :: rest => .lit c :: parsePat rest

/-- Compile a pattern string (`re.compile(p.strip(), re.MULTILINE)`). -/
def compilePat (p : String) : List RItem := parsePat (pyStrip p).data

/-- Try to match a pattern at the current position.  `prev` is the character
just before the position (`none` at the start of the text); on success the
consumed characters and the remaining text are returned. -/
def reMatch : List RItem → Option Char → List Char → Option (List Char × List Char)
  | [], _, s => some ([], s)
  | .bol :: ps, prev, s =>
    if prev = none || prev = some '\n' then reMatch ps prev s else none
  | .eol :: ps, prev, s =>
    if s = [] || s.head? = some '\n' then reMatch ps prev s else none
  | .dot :: ps, _, s =>
    match s with
    | [] => none
    | c :: rest =>
      if c = '\n' then none
      else (reMatch ps (some c) rest).map (fun pr => (c :: pr.1, pr.2))
  | .digit :: ps, _, s =>
    match s with
    | [] => none
    | c :: rest =>
      if c.isDigit then (reMatch ps (some c) rest).map (fun pr => (c :: pr.1, pr.2))
      else none
  | .lit c :: ps, _, s =>
    match s with
    | [] => none
    | c' :: rest =>
      if c' = c then (reMatch ps (some c') rest).map (fun pr => (c' :: pr.1, pr.2))
      else none

/-- Leftmost search: returns `(before, matched, after)` for the first match
(`re.search` with MULTILINE).  Fuel bounds the scan; callers pass the text
length plus one so the scan is complete. -/
def reFindAux (pat : List RItem) : Nat → Option Char → List Char →
    Option (List Char × List Char × List Char)
  | 0, _, _ => none
  | fuel + 1, prev, s =>
    match reMatch pat prev s with
    | some (m, rest) => some ([], m, rest)
    | none =>
      match s with
      | [] => none
      | c :: s' =>
        (reFindAux pat fuel (some c) s').map (fun r => (c :: r.1, r.2.1, r.2.2))

def reFind (pat : List RItem) (s : List Char) : Option (List Char × List Char × List Char) :=
  reFindAux pat (s.length + 1) none s

/-- `re.subn` on the modelled fragment: replace left to right, continuing
after each match; an empty match consumes one replacement and advances one
character.  `limit = 0` means unlimited.  Replacement text is taken
literally (group back-references are outside the fragment). -/
def reSubnAux (pat : List RItem) (repl : List Char) (limit : Nat) :
    Nat → Option Char → List Char → Nat → List Char × Nat
  | 0, _, s, done => (s, done)
  | fuel + 1, prev, s, done =>
    if limit ≠ 0 && done ≥ limit then (s, done)
    else
      match reMatch pat prev s with
      | some (m, rest) =>
        if m = [] then
          match s with
          | [] => (repl, done + 1)
          | c :: s' =>
            let r := reSubnAux pat repl limit fuel (some c) s' (done + 1)
            (repl ++ c :: r.1, r.2)
        else
          let r := reSubnAux pat repl limit fuel (some (m.getLastD ' ')) rest (done + 1)
          (repl ++ r.1, r.2)
      | none =>
        match s with
        | [] => ([], done)
        | c :: s' =>
          let r := reSubnAux pat repl limit fuel (some c) s' done
          (c :: r.1, r.2)

/-- `_safe_regex_sub` (`re.subn` with MULTILINE; the wall-clock timeout is
not modelled). -/
def safe_regex_sub (pattern repl text : String) (count : Nat) : String × Nat :=
  let r := reSubnAux (compilePat pattern) repl.data count (text.data.length + 1) none text.data 0
  (String.mk r.1, r.2)

/-- `_safe_regex_search` as a match test (`re.search` with MULTILINE). -/
def safe_regex_found (pattern text : String) : Bool :=
  (reFind (compilePat pattern) text.data).isSome

/-- Count of non-overlapping matches, `len(re.finditer ...)`, via repeated
substitution (each match of `re.finditer` corresponds to one replacement of
an unlimited `re.subn`). -/
def regex_count (pattern text : String) : Nat :=
  (safe_regex_sub pattern "" text 0).2

/-! ## Engine text transformers -/

/-- `_apply_insert_before_regex`. -/
def apply_insert_before_regex (text regex insert_line : String) : String × Int :=
  match reFind (compilePat regex) text.data with
  | none => (text, 0)
  | some (before, m, after) =>
    let new_text := String.mk (before ++ insert_line.data ++ '\n' :: (m ++ after))
    if new_text = text then (text, 0) else (new_text, 1)

/-- `_apply_insert_after_regex`. -/
def apply_insert_after_regex (text regex insert_line : String) : String × Int :=
  match reFind (compilePat regex) text.data with
  | none => (text, 0)
  | some (before, m, after) =>
    let new_text := String.mk (before ++ m ++ '\n' :: insert_line.data ++ after)
    if new_text = text then (text, 0) else (new_text, 1)

/-- `_apply_replace_regex` (both the all-matches and first-only forms). -/
def apply_replace_regex (text regex repl : String) (first_only : Bool) : String × Int :=
  let count := if first_only then 1 else 0
  let r := safe_regex_sub regex repl text count
  if r.1 = text then (text, 0)
  else (r.1, if r.2 > 0 then 1 else 0)

/-- `_apply_delete_regex`. -/
def apply_delete_regex (text regex : String) : String × Int :=
  let r := safe_regex_sub regex "" text 0
  if r.1 = text then (text, 0)
  else (r.1, if r.2 > 0 then 1 else 0)

/-- `_apply_replace_block`: find `start_re`, find `end_re` in the suffix
after it, and replace the spanned region with `block_text`. -/
def apply_replace_block (text start_re end_re block_text : String) : String × Int :=
  match reFind (compilePat start_re) text.data with
  | none => (text, 0)
  | some (b1, _m1, rest1) =>
    match reFind (compilePat end_re) rest1 with
    | none => (text, 0)
    | some (_b2, _m2, rest2) =>
      let new_text := String.mk (b1 ++ block_text.data ++ rest2)
      if new_text = text then (text, 0) else (new_text, 1)

/-! ## Disk and overlay VFS state -/

/-- The on-disk tree under the root: text files plus directory paths.
Directory creation (`os.makedirs`) is not modelled. -/
structure Disk where
  files : Assoc String
  dirs : List String
deriving DecidableEq, Repr, Inhabited

namespace Disk

def existsPath (d : Disk) (p : String) : Bool :=
  (d.files.lookupA p).isSome || d.dirs.contains p

def isDir (d : Disk) (p : String) : Bool := d.dirs.contains p

/-- Disk read as `_get_file_text` performs it: absent or a directory reads
as `none`. -/
def readFileText (d : Disk) (p : String) : Option String :=
  if ¬ existsPath d p then none
  else if isDir d p then none
  else d.files.lookupA p

def writeFileText (d : Disk) (p t : String) : Disk :=
  { d with files := d.files.setA p t }

/-- `_delete_file` effect on the tree: remove the file if present. -/
def removeFile (d : Disk) (p : String) : Disk :=
  { d with files := d.files.eraseA p }

end Disk

/-- Per-path change metadata (`changed_files` values); hash fields are not
modelled. -/
structure ChangeMeta where
  file : String
  bytes_before : Nat
  is_new : Bool
  action : String
  bytes_after : Nat := 0
deriving DecidableEq, Repr, Inhabited

/-- Overlay VFS state of a run: buffered contents, logical deletions,
change metadata, the `new_files` list and the `touched` counter. -/
structure VfsState where
  vfs : Assoc String
  deleted : List String
  changed : Assoc ChangeMeta
  newFiles : List String
  touched : Nat
deriving DecidableEq, Repr, Inhabited

/-- The empty VFS created at run start. -/
def VfsState.empty : VfsState := ⟨[], [], [], [], 0⟩

/-- `_get_file_text`: deleted paths read as absent, buffered paths read from
the overlay, anything else falls back to the disk. -/
def getFileText (disk : Disk) (st : VfsState) (rel_path : String) : Option String :=
  let rel := rel_norm rel_path
  if st.deleted.contains rel then none
  else
    match st.vfs.lookupA rel with
    | some t => some t
    | none => disk.readFileText rel

/-- `_set_file_text`: clear the deletion mark, record a `new_files` entry
for a genuinely new file, store the text, and update `changed_files` only
when the text differs from the previous content. -/
def setFileText (disk : Disk) (st : VfsState) (rel_path text : String) (is_new : Bool) : VfsState :=
  let rel := rel_norm rel_path
  let st := { st with deleted := st.deleted.filter (· ≠ rel) }
  let old? := getFileText disk st rel
  let st :=
    if old?.isNone && is_new then { st with newFiles := st.newFiles ++ [rel] } else st
  let old := old?.getD ""
  if old = text then { st with vfs := st.vfs.setA rel text }
  else
    let act := if is_new then "ADD" else "MOD"
    let changed' :=
      (st.changed.setdefault rel ⟨rel, utf8Len old, is_new, act, 0⟩).modify rel
        (fun m => { m with bytes_after := utf8Len text, action := act })
    { st with vfs := st.vfs.setA rel text, changed := changed', touched := st.touched + 1 }

/-- `_delete_file_text`: `0` for a non-existent target, `-2` for a directory
that is not an overlay entry, otherwise remove from the overlay, mark
deleted, and record a `DEL` change. -/
def deleteFileText (disk : Disk) (st : VfsState) (rel_path : String) : VfsState × Int :=
  let rel := rel_norm rel_path
  if rel = "" then (st, 0)
  else
    let cur := getFileText disk st rel
    if cur.isNone && ¬ disk.existsPath rel then (st, 0)
    else if disk.isDir rel && (st.vfs.lookupA rel).isNone then (st, -2)
    else
      let before := cur.getD ""
      let changed' :=
        (st.changed.setdefault rel ⟨rel, utf8Len before, false, "DEL", 0⟩).modify rel
          (fun m => { m with bytes_after := 0, is_new := false, action := "DEL" })
      let deleted2 := if st.deleted.contains rel then st.deleted else st.deleted ++ [rel]
      let st2 := { st with
        vfs := st.vfs.eraseA rel
        deleted := deleted2
        changed := changed'
        touched := st.touched + 1 }
      (st2, 1)

/-! ## Engine: per-command execution -/

/-- Error record (`{step, script, file, line, op, error, raw}`); sites that
omit a field in the source leave the default here. -/
structure Err where
  step : String := ""
  script : String := ""
  file : String := ""
  line : Nat := 0
  op : String := ""
  error : String := ""
  raw : String := ""
deriving DecidableEq, Repr, Inhabited

/-- Per-command outcome record (`op_record`); the optional extras
(`to`, `from`, `hits`, `found`) are not modelled. -/
structure OpRec where
  line : Nat
  op : String
  changed : Int
deriving DecidableEq, Repr, Inhabited

/-- Per-file report entry built by `ensure_file_entry`; the close-out
fields (diff text, byte counts, hashes) are not modelled. -/
structure FileEntry where
  file : String
  changed : Bool := false
  ops : List OpRec := []
  is_new : Bool := false
  is_deleted : Bool := false
deriving DecidableEq, Repr, Inhabited

/-- Step/script naming context for error records. -/
structure Ctx where
  stepName : String
  scriptName : String
deriving DecidableEq, Repr, Inhabited

/-- Accumulated state while executing one script's commands. -/
structure ScriptAcc where
  fs : VfsState
  perFile : Assoc FileEntry
  errors : List Err
deriving DecidableEq, Repr, Inhabited

/-- Run configuration (the `run_pipeline` parameters the claims exercise;
`workers` is reserved and unused by the core). -/
structure Config where
  rootParts : List String
  disk0 : Disk
  planOnly : Bool
  strict : Bool
  backup : Bool
  rollbackOnFail : Bool
  allow : List String
  maxFiles : Nat
  maxTotalWriteBytes : Nat
deriving DecidableEq, Repr, Inhabited

def mkErr (ctx : Ctx) (file : String) (c : RWCommand) (msg : String) : Err :=
  ⟨ctx.stepName, ctx.scriptName, file, c.line_no, c.op, msg, c.raw⟩

def addErr (acc : ScriptAcc) (e : Err) : ScriptAcc :=
  { acc with errors := acc.errors ++ [e] }

def ensureFileEntry (acc : ScriptAcc) (rel : String) : ScriptAcc :=
  { acc with perFile := acc.perFile.setdefault rel ⟨rel, false, [], false, false⟩ }

def opRecord (acc : ScriptAcc) (rel : String) (c : RWCommand) (changed : Int) : ScriptAcc :=
  { acc with perFile :=
      acc.perFile.modify rel (fun fe => { fe with ops := fe.ops ++ [⟨c.line_no, c.op, changed⟩] }) }

def feSetChanged (acc : ScriptAcc) (rel : String) : ScriptAcc :=
  { acc with perFile := acc.perFile.modify rel (fun fe => { fe with changed := true }) }

def feSetNew (acc : ScriptAcc) (rel : String) : ScriptAcc :=
  { acc with perFile := acc.perFile.modify rel (fun fe => { fe with is_new := true }) }

def feSetDeleted (acc : ScriptAcc) (rel : String) : ScriptAcc :=
  { acc with perFile := acc.perFile.modify rel (fun fe => { fe with is_deleted := true }) }

/-- Shared tail of the five regex-mutation commands: report a timeout as
`REGEX_TIMEOUT`, a strict no-op as `STRICT_FAIL_EXPECTED_CHANGE`, write the
new text back on `changed = 1`, and record the outcome. -/
def regexMutStep (cfg : Config) (ctx : Ctx) (acc : ScriptAcc) (cmd : RWCommand)
    (rel : String) (result : String × Int) (allow_noop : Bool) : ScriptAcc :=
  let new_text := result.1
  let changed := result.2
  let acc := if changed = -1 then addErr acc (mkErr ctx rel cmd "REGEX_TIMEOUT") else acc
  let acc :=
    if cfg.strict && changed = 0 && ¬ allow_noop then
      addErr acc (mkErr ctx rel cmd "STRICT_FAIL_EXPECTED_CHANGE")
    else acc
  let acc :=
    if changed = 1 then
      feSetChanged { acc with fs := setFileText cfg.disk0 acc.fs rel new_text false } rel
    else acc
  opRecord acc rel cmd changed

/-- `ASSERT_FILE_EXISTS` body. -/
def execAssertExists (ctx : Ctx) (acc : ScriptAcc) (cmd : RWCommand) (rel : String)
    (file_exists : Bool) : ScriptAcc :=
  let acc :=
    if ¬ file_exists then addErr acc (mkErr ctx rel cmd "ASSERT_FILE_EXISTS_FAILED")
    else acc
  opRecord acc rel cmd 0

/-- `ASSERT_FILE_NOT_EXISTS` body. -/
def execAssertNotExists (ctx : Ctx) (acc : ScriptAcc) (cmd : RWCommand) (rel : String)
    (file_exists : Bool) : ScriptAcc :=
  let acc :=
    if file_exists then addErr acc (mkErr ctx rel cmd "ASSERT_FILE_NOT_EXISTS_FAILED")
    else acc
  opRecord acc rel cmd 0

/-- `SCAN_FILE` body (scan hit records are not modelled; the file is read
but never mutated). -/
def execScanFile (ctx : Ctx) (acc : ScriptAcc) (cmd : RWCommand) (rel : String)
    (cur_text : Option String) : ScriptAcc :=
  match cur_text with
  | none => opRecord (addErr acc (mkErr ctx rel cmd "FILE_NOT_FOUND")) rel cmd 0
  | some _ => opRecord acc rel cmd 0

/-- `ASSERT_REGEX` body. -/
def execAssertRegex (ctx : Ctx) (acc : ScriptAcc) (cmd : RWCommand) (rel : String)
    (cur_text : Option String) : ScriptAcc :=
  match cur_text with
  | none => opRecord (addErr acc (mkErr ctx rel cmd "FILE_NOT_FOUND")) rel cmd 0
  | some t =>
    let found := safe_regex_found (cmd.args.getD 0 "") t
    let acc :=
      if ¬ found then addErr acc (mkErr ctx rel cmd "ASSERT_REGEX_FAILED") else acc
    opRecord acc rel cmd 0

/-- `ASSERT_NOT_REGEX` body. -/
def execAssertNotRegex (ctx : Ctx) (acc : ScriptAcc) (cmd : RWCommand) (rel : String)
    (cur_text : Option String) : ScriptAcc :=
  match cur_text with
  | none => opRecord acc rel cmd 0
  | some t =>
    let found := safe_regex_found (cmd.args.getD 0 "") t
    let acc :=
      if found then addErr acc (mkErr ctx rel cmd "ASSERT_NOT_REGEX_FAILED") else acc
    opRecord acc rel cmd 0

/-- `ASSERT_REGEX_COUNT` body. -/
def execAssertRegexCount (ctx : Ctx) (acc : ScriptAcc) (cmd : RWCommand) (rel : String)
    (cur_text : Option String) : ScriptAcc :=
  match cur_text with
  | none => opRecord (addErr acc (mkErr ctx rel cmd "FILE_NOT_FOUND")) rel cmd 0
  | some t =>
    match (if cmd.args.length ≥ 2 then pyInt? (cmd.args.getD 1 "") else some 0) with
    | none =>
      opRecord (addErr acc (mkErr ctx rel cmd "INVALID_ARGS expected integer count")) rel cmd 0
    | some expected =>
      let found := regex_count (cmd.args.getD 0 "") t
      let acc :=
        if (found : Int) ≠ expected then
          addErr acc (mkErr ctx rel cmd
            ("ASSERT_REGEX_COUNT_FAILED expected=" ++ toString expected ++
             " found=" ++ toString found))
        else acc
      opRecord acc rel cmd 0

/-- `CREATE_FILE` body: no-op when the file already exists. -/
def execCreateFile (cfg : Config) (acc : ScriptAcc) (cmd : RWCommand) (rel : String)
    (cur_text : Option String) : ScriptAcc :=
  let content := if cmd.args ≠ [] then json_unquote (cmd.args.getD 0 "") else ""
  match cur_text with
  | none =>
    let acc := { acc with fs := setFileText cfg.disk0 acc.fs rel content true }
    opRecord (feSetNew (feSetChanged acc rel) rel) rel cmd 1
  | some _ => opRecord acc rel cmd 0

/-- `WRITE_FILE` body: requires existence, overwrites when differing. -/
def execWriteFile (cfg : Config) (ctx : Ctx) (acc : ScriptAcc) (cmd : RWCommand) (rel : String)
    (cur_text : Option String) : ScriptAcc :=
  match cur_text with
  | none => opRecord (addErr acc (mkErr ctx rel cmd "FILE_NOT_FOUND")) rel cmd 0
  | some t =>
    let content := if cmd.args ≠ [] then json_unquote (cmd.args.getD 0 "") else ""
    if t ≠ content then
      let acc := { acc with fs := setFileText cfg.disk0 acc.fs rel content false }
      opRecord (feSetChanged acc rel) rel cmd 1
    else opRecord acc rel cmd 0

/-- `UPSERT_FILE` body: create-or-overwrite. -/
def execUpsertFile (cfg : Config) (acc : ScriptAcc) (cmd : RWCommand) (rel : String)
    (cur_text : Option String) : ScriptAcc :=
  let content := if cmd.args ≠ [] then json_unquote (cmd.args.getD 0 "") else ""
  let is_new_file := cur_text.isNone
  if (cur_text.getD "") ≠ content then
    let acc := { acc with fs := setFileText cfg.disk0 acc.fs rel content is_new_file }
    let acc := feSetChanged acc rel
    let acc := if is_new_file then feSetNew acc rel else acc
    opRecord acc rel cmd 1
  else opRecord acc rel cmd 0

/-- `DELETE_FILE` body. -/
def execDeleteFile (cfg : Config) (ctx : Ctx) (acc : ScriptAcc) (cmd : RWCommand) (rel : String)
    (allow_noop : Bool) : ScriptAcc :=
  let r := deleteFileText cfg.disk0 acc.fs rel
  let acc := { acc with fs := r.1 }
  if r.2 = -2 then
    opRecord (addErr acc (mkErr ctx rel cmd "DIRECTORY_NOT_SUPPORTED")) rel cmd 0
  else
    let acc :=
      if r.2 = 0 && cfg.strict && ¬ allow_noop then
        addErr acc (mkErr ctx rel cmd "STRICT_FAIL_EXPECTED_CHANGE")
      else acc
    let acc :=
      if r.2 = 1 then feSetDeleted (feSetChanged acc rel) rel else acc
    opRecord acc rel cmd (if r.2 = 1 then 1 else 0)

/-- Final stage of `MOVE_FILE` / `COPY_FILE`: for a move, delete the
source; then the strict no-op check and the outcome records (the
destination entry receives a mirror record). -/
def execMoveFinish (cfg : Config) (ctx : Ctx) (acc : ScriptAcc) (cmd : RWCommand)
    (rel_file dst_rel : String) (changed1 : Int) (allow_noop : Bool) : ScriptAcc :=
  let moveRes :=
    if cmd.op = "MOVE_FILE" then deleteFileText cfg.disk0 acc.fs rel_file
    else (acc.fs, (0 : Int))
  if cmd.op = "MOVE_FILE" && moveRes.2 = -2 then
    opRecord
      (addErr { acc with fs := moveRes.1 }
        (mkErr ctx rel_file cmd "DIRECTORY_NOT_SUPPORTED")) rel_file cmd 0
  else
    let acc := { acc with fs := moveRes.1 }
    let moved := cmd.op = "MOVE_FILE" && moveRes.2 = 1
    let acc :=
      if moved then feSetDeleted (feSetChanged acc rel_file) rel_file else acc
    let changed : Int := if moved then 1 else changed1
    let acc :=
      if cfg.strict && changed = 0 && ¬ allow_noop then
        addErr acc (mkErr ctx rel_file cmd "STRICT_FAIL_EXPECTED_CHANGE")
      else acc
    let acc := opRecord acc rel_file cmd changed
    if (acc.perFile.lookupA dst_rel).isSome then
      opRecord acc dst_rel cmd changed
    else acc

/-- Middle stage of `MOVE_FILE` / `COPY_FILE`: stage the copy when the
destination differs from the source. -/
def execMoveStage (cfg : Config) (ctx : Ctx) (acc : ScriptAcc) (cmd : RWCommand)
    (rel_file dst_rel cur : String) (dst_text : Option String) (allow_noop : Bool) : ScriptAcc :=
  let copied := dst_rel ≠ rel_file && dst_text ≠ some cur
  let acc :=
    if copied then
      let dst_was_new := dst_text.isNone
      let acc := { acc with fs := setFileText cfg.disk0 acc.fs dst_rel cur dst_was_new }
      let acc := feSetChanged acc dst_rel
      if dst_was_new then feSetNew acc dst_rel else acc
    else acc
  execMoveFinish cfg ctx acc cmd rel_file dst_rel (if copied then 1 else 0) allow_noop

/-- `MOVE_FILE` / `COPY_FILE` body: validate the destination, stage the copy
when contents differ, and for `MOVE_FILE` delete the source. -/
def execMoveCopy (cfg : Config) (ctx : Ctx) (acc : ScriptAcc) (cmd : RWCommand) (rel_file : String)
    (cur_text : Option String) (is_dir allow_noop : Bool) : ScriptAcc :=
  let dst_rel := if cmd.args ≠ [] then rel_norm (cmd.args.getD 0 "") else ""
  if dst_rel = "" then
    opRecord (addErr acc (mkErr ctx rel_file cmd "INVALID_ARGS missing destination path"))
      rel_file cmd 0
  else if ¬ is_path_allowed dst_rel cfg.allow cfg.rootParts then
    opRecord (addErr acc (mkErr ctx dst_rel cmd "PATH_NOT_ALLOWED_OR_UNSAFE")) rel_file cmd 0
  else
    let acc := ensureFileEntry acc dst_rel
    let dst_exists_in_vfs :=
      (acc.fs.vfs.lookupA dst_rel).isSome && ¬ acc.fs.deleted.contains dst_rel
    let dst_is_dir :=
      cfg.disk0.isDir dst_rel && ¬ dst_exists_in_vfs && ¬ acc.fs.deleted.contains dst_rel
    let dst_text := if dst_is_dir then none else getFileText cfg.disk0 acc.fs dst_rel
    match cur_text with
    | none =>
      if allow_noop then opRecord acc rel_file cmd 0
      else opRecord (addErr acc (mkErr ctx rel_file cmd "FILE_NOT_FOUND")) rel_file cmd 0
    | some cur =>
      if is_dir then
        opRecord (addErr acc (mkErr ctx rel_file cmd "DIRECTORY_NOT_SUPPORTED")) rel_file cmd 0
      else if dst_is_dir then
        opRecord (addErr acc (mkErr ctx dst_rel cmd "DESTINATION_IS_DIRECTORY")) rel_file cmd 0
      else
        let overwrite := opt_bool cmd.opts "OVERWRITE" false
        if dst_rel ≠ rel_file && dst_text.isSome && ¬ overwrite then
          opRecord (addErr acc (mkErr ctx dst_rel cmd "DESTINATION_EXISTS")) rel_file cmd 0
        else
          execMoveStage cfg ctx acc cmd rel_file dst_rel cur dst_text allow_noop

/-- Tail of the dispatch: the regex-mutation ops and the `UNKNOWN_OP`
fallthrough, all of which first require the file to exist. -/
def execRegexOps (cfg : Config) (ctx : Ctx) (acc : ScriptAcc) (cmd : RWCommand) (rel : String)
    (cur_text : Option String) (allow_noop : Bool) : ScriptAcc :=
  match cur_text with
  | none =>
    opRecord (addErr acc (mkErr ctx rel cmd "FILE_NOT_FOUND")) rel cmd 0
  | some t =>
    if cmd.op = "INSERT_BEFORE_REGEX" then
      regexMutStep cfg ctx acc cmd rel
        (apply_insert_before_regex t (cmd.args.getD 0 "") (cmd.args.getD 1 "")) allow_noop
    else if cmd.op = "INSERT_AFTER_REGEX" then
      regexMutStep cfg ctx acc cmd rel
        (apply_insert_after_regex t (cmd.args.getD 0 "") (cmd.args.getD 1 "")) allow_noop
    else if cmd.op = "REPLACE_REGEX" then
      regexMutStep cfg ctx acc cmd rel
        (apply_replace_regex t (cmd.args.getD 0 "") (cmd.args.getD 1 "") false) allow_noop
    else if cmd.op = "REPLACE_REGEX_FIRST" then
      regexMutStep cfg ctx acc cmd rel
        (apply_replace_regex t (cmd.args.getD 0 "") (cmd.args.getD 1 "") true) allow_noop
    else if cmd.op = "DELETE_REGEX" then
      regexMutStep cfg ctx acc cmd rel
        (apply_delete_regex t (cmd.args.getD 0 "")) allow_noop
    else if cmd.op = "REPLACE_BLOCK" then
      regexMutStep cfg ctx acc cmd rel
        (apply_replace_block t (cmd.args.getD 0 "") (cmd.args.getD 1 "")
          (json_unquote (cmd.args.getD 2 ""))) allow_noop
    else
      opRecord (addErr acc (mkErr ctx rel cmd "UNKNOWN_OP")) rel cmd 0

/-- The `exists_in_vfs` flag of the per-command prelude. -/
def existsInVfs (acc : ScriptAcc) (rel : String) : Bool :=
  (acc.fs.vfs.lookupA rel).isSome && ¬ acc.fs.deleted.contains rel

/-- The `file_exists` flag of the per-command prelude. -/
def fileExistsFlag (cfg : Config) (acc : ScriptAcc) (rel : String) : Bool :=
  existsInVfs acc rel || (cfg.disk0.existsPath rel && ¬ acc.fs.deleted.contains rel)

/-- The `is_dir` flag of the per-command prelude. -/
def isDirFlag (cfg : Config) (acc : ScriptAcc) (rel : String) : Bool :=
  cfg.disk0.isDir rel && ¬ existsInVfs acc rel && ¬ acc.fs.deleted.contains rel

/-- The `cur_text` value of the per-command prelude. -/
def curTextOf (cfg : Config) (acc : ScriptAcc) (rel : String) : Option String :=
  if isDirFlag cfg acc rel then none else getFileText cfg.disk0 acc.fs rel

/-- The arg-count test against `COMMAND_MIN_ARGS`. -/
def belowMinArgs (cmd : RWCommand) : Bool :=
  match command_min_args cmd.op with
  | some m => decide (cmd.args.length < m)
  | none => false

def invalidArgsMsg (cmd : RWCommand) : String :=
  "INVALID_ARGS expected>=" ++ toString ((command_min_args cmd.op).getD 0) ++
    " got=" ++ toString cmd.args.length

/-- The op dispatch table of the per-command body, after canonicalization:
the arg-count check followed by the per-op behaviors, in source order. -/
def execDispatch (cfg : Config) (ctx : Ctx) (acc : ScriptAcc) (cmd : RWCommand)
    (rel_file : String) (file_exists is_dir : Bool) (cur_text : Option String) : ScriptAcc :=
  if belowMinArgs cmd then
    opRecord (addErr acc (mkErr ctx rel_file cmd (invalidArgsMsg cmd))) rel_file cmd 0
  else if cmd.op = "ASSERT_FILE_EXISTS" then execAssertExists ctx acc cmd rel_file file_exists
  else if cmd.op = "ASSERT_FILE_NOT_EXISTS" then
    execAssertNotExists ctx acc cmd rel_file file_exists
  else if cmd.op = "SCAN_FILE" then execScanFile ctx acc cmd rel_file cur_text
  else if cmd.op = "ASSERT_REGEX" then execAssertRegex ctx acc cmd rel_file cur_text
  else if cmd.op = "ASSERT_NOT_REGEX" then execAssertNotRegex ctx acc cmd rel_file cur_text
  else if cmd.op = "ASSERT_REGEX_COUNT" then execAssertRegexCount ctx acc cmd rel_file cur_text
  else if cmd.op = "CREATE_FILE" then execCreateFile cfg acc cmd rel_file cur_text
  else if cmd.op = "WRITE_FILE" then execWriteFile cfg ctx acc cmd rel_file cur_text
  else if cmd.op = "UPSERT_FILE" then execUpsertFile cfg acc cmd rel_file cur_text
  else if cmd.op = "DELETE_FILE" then
    execDeleteFile cfg ctx acc cmd rel_file (opt_bool cmd.opts "ALLOW_NOOP" false)
  else if cmd.op = "MOVE_FILE" || cmd.op = "COPY_FILE" then
    execMoveCopy cfg ctx acc cmd rel_file cur_text is_dir (opt_bool cmd.opts "ALLOW_NOOP" false)
  else execRegexOps cfg ctx acc cmd rel_file cur_text (opt_bool cmd.opts "ALLOW_NOOP" false)

/-- The per-command body after the path guard: canonicalize, then dispatch
with the overlay stats computed before execution. -/
def execGuarded (cfg : Config) (ctx : Ctx) (acc : ScriptAcc) (cmd0 : RWCommand)
    (rel_file : String) : ScriptAcc :=
  match (canonicalize_command cmd0).2 with
  | some msg =>
    opRecord (addErr acc (mkErr ctx rel_file (canonicalize_command cmd0).1 msg))
      rel_file (canonicalize_command cmd0).1 0
  | none =>
    execDispatch cfg ctx acc (canonicalize_command cmd0).1 rel_file
      (fileExistsFlag cfg acc rel_file) (isDirFlag cfg acc rel_file)
      (curTextOf cfg acc rel_file)

/-- One engine dispatch (`run_pipeline`'s per-command body): path guard,
then canonicalization and the op dispatch table. -/
def execCmd (cfg : Config) (ctx : Ctx) (acc0 : ScriptAcc) (cmd0 : RWCommand) : ScriptAcc :=
  if ¬ is_path_allowed (rel_norm cmd0.file) cfg.allow cfg.rootParts then
    addErr acc0 (mkErr ctx (rel_norm cmd0.file) cmd0 "PATH_NOT_ALLOWED_OR_UNSAFE")
  else
    execGuarded cfg ctx (ensureFileEntry acc0 (rel_norm cmd0.file)) cmd0 (rel_norm cmd0.file)

/-! ## Transactional runner -/

/-- A script, already loaded and parsed (`load_changes`); `name` is the
script path used in error records. -/
structure Script where
  name : String
  cmds : List RWCommand
deriving DecidableEq, Repr, Inhabited

/-- A normalized pipeline step. -/
structure Step where
  name : String
  scripts : List Script
deriving DecidableEq, Repr, Inhabited

/-- Per-script report entry. -/
structure ScriptEntry where
  script : String
  files : Assoc FileEntry
  errors : List Err
deriving DecidableEq, Repr, Inhabited

/-- Per-step report entry. -/
structure StepEntry where
  name : String
  scripts : List ScriptEntry
  status : String
deriving DecidableEq, Repr, Inhabited

/-- Execute one script's commands in order (the close-out diff/bytes/hash
computation on the per-file entries is not modelled). -/
def runScript (cfg : Config) (stepName : String) (fs : VfsState) (s : Script) :
    VfsState × ScriptEntry :=
  let acc := s.cmds.foldl (execCmd cfg ⟨stepName, s.name⟩) ⟨fs, [], []⟩
  (acc.fs, ⟨s.name, acc.perFile, acc.errors⟩)

def runScripts (cfg : Config) (stepName : String) :
    VfsState → List Script → VfsState × List ScriptEntry
  | fs, [] => (fs, [])
  | fs, s :: rest =>
    match runScript cfg stepName fs s with
    | (fs', entry) =>
      match runScripts cfg stepName fs' rest with
      | (fs'', entries) => (fs'', entry :: entries)

/-- Step-level error aggregate: the concatenation of the script entries'
error lists, in order. -/
def stepErrsOf (entries : List ScriptEntry) : List Err :=
  entries.foldl (fun a e => a ++ e.errors) []

/-- Execute the steps in order; a step with errors is marked `FAILED`, its
errors are surfaced, and later steps are skipped. -/
def runSteps (cfg : Config) : VfsState → List Step → VfsState × List StepEntry × List Err
  | fs, [] => (fs, [], [])
  | fs, step :: rest =>
    if step.scripts.isEmpty then
      (fs, [⟨step.name, [], "FAILED"⟩],
       [{ step := step.name, error := "STEP_INVALID scripts[] required (non-empty)" }])
    else
      match runScripts cfg step.name fs step.scripts with
      | (fs', entries) =>
        if !(stepErrsOf entries).isEmpty then
          (fs', [⟨step.name, entries, "FAILED"⟩], stepErrsOf entries)
        else
          match runSteps cfg fs' rest with
          | (fs'', more, errs') => (fs'', ⟨step.name, entries, "OK"⟩ :: more, errs')

/-- Commit the staged changes to disk: `DEL` entries are removed, other
entries are written with the final overlay content (`_write_file` /
`_delete_file`; backup snapshots live under `data/history` and are modelled
outside the disk map). -/
def commitApply (cfg : Config) (fs : VfsState) (disk : Disk) : Disk :=
  fs.changed.foldl
    (fun d kv =>
      if kv.2.action = "DEL" then d.removeFile kv.1
      else d.writeFileText kv.1 ((getFileText cfg.disk0 fs kv.1).getD ""))
    disk

/-- The summary file path, `data/index/changes-summary.md`. -/
def summaryPath : String := "data/index/changes-summary.md"

/-- Python `s.rstrip("\n")`. -/
def rstripNewlines (s : String) : String :=
  String.mk ((s.data.reverse.dropWhile (· = '\n')).reverse)

def rootStr (cfg : Config) : String := "/" ++ strJoin "/" cfg.rootParts

/-- The markdown summary the runner always writes.  Duration is modelled as
0 and the per-file diff bodies are elided (no claim reads the summary's
bytes beyond inequality with prior content). -/
def summaryMd (cfg : Config) (errors : List Err) : String :=
  let md := ["# Safe-Vibe Patch Summary", "",
    "- Root: `" ++ rootStr cfg ++ "`",
    "- Plan only: `" ++ pyBool cfg.planOnly ++ "`",
    "- Strict: `" ++ pyBool cfg.strict ++ "`",
    "- Backup: `" ++ pyBool cfg.backup ++ "`",
    "- Rollback on fail: `" ++ pyBool cfg.rollbackOnFail ++ "`",
    "- Duration (ms): `0`",
    "",
    "## Status: " ++ (if errors ≠ [] then "FAILED" else "OK")]
  let md := md ++
    (if errors ≠ [] then
      ["", "## Errors", ""] ++
        errors.map (fun e => "- `" ++ e.error ++ "`: " ++ e.file ++ " (" ++ e.step ++ ")")
     else [])
  let md := md ++ ["", "## Diffs", "", "No changes to display."]
  rstripNewlines (strJoin "\n" md) ++ "\n"

/-- Changed per-file report entries across all steps, deduplicated by
normalized path in iteration order (the `seen_paths` loop of the history
finalizer). -/
def collectChangedPaths (steps : List StepEntry) : List String :=
  let all := steps.foldl
    (fun a st => st.scripts.foldl
      (fun a sc => sc.files.foldl
        (fun a kv => if kv.2.changed && rel_norm kv.1 ≠ "" then a ++ [rel_norm kv.1] else a)
        a)
      a)
    []
  all.foldl (fun a p => if a.contains p then a else a ++ [p]) []

/-- Insertion sort on strings (the `sorted(..., key=path)` of the history
finalizer). -/
def insertStr (x : String) : List String → List String
  | [] => [x]
  | y :: ys => if strLtB x.data y.data then x :: y :: ys else y :: insertStr x ys

def sortStr (l : List String) : List String := l.foldr insertStr []

/-- Result of one `run_pipeline` invocation.  History artifacts
(`manifest.json`, `runs.jsonl`, `by-path.jsonl`) are modelled as structured
fields rather than disk bytes; `exitCode` is the process exit status the
CLI derives from the report. -/
structure RunResult where
  errors : List Err
  steps : List StepEntry
  disk : Disk
  rollbackAttempted : Bool
  filesRestored : List String
  filesRemoved : List String
  historyStatus : Option String
  byPathAppends : List String
  runsIndexAppends : Nat
  committed : Bool
  errorsAtCommit : List Err
  errorsPreCommit : List Err
  changedAtCommit : Assoc ChangeMeta
  wroteBytes : Nat
  exitCode : Nat
deriving DecidableEq, Repr, Inhabited

/-- Total staged write volume recomputed at commit:
`sum(len(utf8(final overlay content)))` over the changed entries. -/
def wroteBytesOf (cfg : Config) (fs : VfsState) : Nat :=
  fs.changed.foldl (fun n kv => n + utf8Len ((getFileText cfg.disk0 fs kv.1).getD "")) 0

/-- The limit errors the commit phase may append. -/
def limitErrsOf (cfg : Config) (fs : VfsState) : List Err :=
  (if fs.changed.length > cfg.maxFiles then
    [{ error := "LIMIT_MAX_FILES_EXCEEDED" }] else []) ++
  (if wroteBytesOf cfg fs > cfg.maxTotalWriteBytes then
    [{ error := "LIMIT_MAX_TOTAL_WRITE_BYTES_EXCEEDED" }] else [])

/-- The report's error list after the commit phase's limit checks. -/
def errsPreOf (cfg : Config) (fs : VfsState) (stepErrs : List Err) : List Err :=
  if !cfg.planOnly && stepErrs.isEmpty then stepErrs ++ limitErrsOf cfg fs else stepErrs

/-- Whether the staged changes are committed to disk. -/
def commitCondOf (cfg : Config) (fs : VfsState) (stepErrs : List Err) : Bool :=
  (!cfg.planOnly && stepErrs.isEmpty) && (limitErrsOf cfg fs).isEmpty

/-- The disk after the commit phase (before the summary rewrite). -/
def diskAfterCommit (cfg : Config) (fs : VfsState) (stepErrs : List Err) : Disk :=
  if commitCondOf cfg fs stepErrs then commitApply cfg fs cfg.disk0 else cfg.disk0

/-- The history area under the root.  In backup mode every disk write of
the history bootstrap and finalizer — the run directory's `manifest.json`,
`before/` snapshots, `patches/` diffs, `artifacts/`, and the appends to the
fixed-path indices `data/history/index/runs.jsonl` and `by-path.jsonl`
(lines 2199-2226 of the source) — targets a path under this prefix. -/
def historyPrefix : String := "data/history/"

/-- The disk at the end of the run: the commit-phase result with the
summary file rewritten.  The history bootstrap/finalizer writes are NOT
part of this map: they all target paths under `historyPrefix` and are
modelled as the structured fields `historyStatus`, `runsIndexAppends` and
`byPathAppends` of the run result.  Frame theorems over `finalDisk`
therefore assert nothing about `summaryPath` or paths under
`historyPrefix`, and carve both out explicitly. -/
def finalDisk (cfg : Config) (fs : VfsState) (stepErrs : List Err) : Disk :=
  (diskAfterCommit cfg fs stepErrs).writeFileText summaryPath
    (summaryMd cfg (errsPreOf cfg fs stepErrs))

/-- Whether `_rollback` was invoked (at step failure or at a commit-phase
limit violation); the in-run backup list is empty at both call sites under
the commit-at-end discipline, so nothing is restored or removed. -/
def rollbackAttemptedOf (cfg : Config) (fs : VfsState) (stepErrs : List Err) : Bool :=
  (!stepErrs.isEmpty && cfg.rollbackOnFail && !cfg.planOnly) ||
  ((!cfg.planOnly && stepErrs.isEmpty) && !(limitErrsOf cfg fs).isEmpty && cfg.rollbackOnFail)

/-- The terminal history status when history mode is active. -/
def historyStatusOf (cfg : Config) (fs : VfsState) (stepErrs : List Err) : Option String :=
  if cfg.backup && !cfg.planOnly then
    some (if (errsPreOf cfg fs stepErrs).isEmpty then "OK"
          else if rollbackAttemptedOf cfg fs stepErrs then "FAILED_ROLLED_BACK"
          else "FAILED_NO_ROLLBACK")
  else none

/-- The `by-path.jsonl` appends: the changed paths, sorted, only for an
`OK` history run. -/
def byPathOf (cfg : Config) (fs : VfsState) (stepEntries : List StepEntry)
    (stepErrs : List Err) : List String :=
  if historyStatusOf cfg fs stepErrs = some "OK" then
    sortStr (collectChangedPaths stepEntries)
  else []

/-- Assemble the run result from the step-phase outcome. -/
def mkRunResult (cfg : Config) (fs : VfsState) (stepEntries : List StepEntry)
    (stepErrs : List Err) : RunResult :=
  { errors := errsPreOf cfg fs stepErrs
    steps := stepEntries
    disk := finalDisk cfg fs stepErrs
    rollbackAttempted := rollbackAttemptedOf cfg fs stepErrs
    filesRestored := []
    filesRemoved := []
    historyStatus := historyStatusOf cfg fs stepErrs
    byPathAppends := byPathOf cfg fs stepEntries stepErrs
    runsIndexAppends := if cfg.backup && !cfg.planOnly then 1 else 0
    committed := commitCondOf cfg fs stepErrs
    errorsAtCommit := stepErrs
    errorsPreCommit := errsPreOf cfg fs stepErrs
    changedAtCommit := fs.changed
    wroteBytes := wroteBytesOf cfg fs
    exitCode := if (errsPreOf cfg fs stepErrs).isEmpty then 0 else 1 }

/-- `run_pipeline`: run the steps, gate the commit on an error-free report
and the two limits, always rewrite the summary file, and finalize history
when enabled.  Run-id creation is modelled as always succeeding; `_rollback`
replays the in-run backup list, which is empty at both call sites under the
commit-at-end discipline, so it restores and removes nothing. -/
def runPipeline (cfg : Config) (pipeline : List Step) : RunResult :=
  match runSteps cfg VfsState.empty pipeline with
  | (fs, stepEntries, stepErrs) => mkRunResult cfg fs stepEntries stepErrs

/-! ## Definitions used by the verification layer -/

/-- The vfs/deleted disjointness invariant of the overlay (claim C5): no
path is simultaneously buffered in `vfs` and marked `deleted`. -/
def InvVD (st : VfsState) : Prop :=
  ∀ p ∈ st.deleted, st.vfs.lookupA p = none

instance (st : VfsState) : Decidable (InvVD st) := by
  unfold InvVD; infer_instance

/-- Escape one character for the DSL field syntax: `|` and `\` gain a
backslash. -/
def escChar (c : Char) : List Char :=
  if c = '|' || c = '\\' then ['\\', c] else [c]

/-- Escape a whole field. -/
def escapeRW : List Char → List Char
  | [] => []
  | c :: rest => escChar c ++ escapeRW rest

/-- Join fields with the unescaped `|` separator. -/
def joinPipe : List (List Char) → List Char
  | [] => []
  | [x] => x
  | x :: y :: rest => x ++ '|' :: joinPipe (y :: rest)

/-- Per-file report entry of a run result, by step index, script index and
path (used to state the concrete scenarios). -/
def fileEntryOf (r : RunResult) (stepIdx scriptIdx : Nat) (p : String) : FileEntry :=
  (((r.steps.getD stepIdx default).scripts.getD scriptIdx default).files.lookupA p).getD default

/-! ### Concrete scenario inputs -/

def ctx0 : Ctx := ⟨"step-1", "script.rw"⟩

def acc0 : ScriptAcc := ⟨VfsState.empty, [], []⟩

/-- C1 counterexample scenario: the summary file itself is a staged change
and a later assertion fails. -/
def cfgC1ce : Config :=
  ⟨["proj"], ⟨[(summaryPath, "orig")], []⟩, false, false, false, false, ["."], 500, 10000000⟩

def pipeC1ce : List Step :=
  [⟨"s1", [⟨"s.rw",
    [⟨"WRITE_FILE", "data/index/changes-summary.md", ["X"], [],
      "WRITE_FILE | data/index/changes-summary.md | X", 1⟩,
     ⟨"ASSERT_FILE_EXISTS", "missing.txt", [], [], "ASSERT_FILE_EXISTS | missing.txt", 2⟩]⟩]⟩]

/-- C1 witness scenario: an apply run whose only step fails. -/
def cfgC1w : Config :=
  ⟨["proj"], ⟨[], []⟩, false, false, false, false, ["."], 500, 10000000⟩

def pipeC1w : List Step :=
  [⟨"s1", [⟨"s.rw",
    [⟨"CREATE_FILE", "a.txt", ["hello"], [], "CREATE_FILE | a.txt | hello", 1⟩,
     ⟨"ASSERT_FILE_EXISTS", "missing.txt", [], [], "ASSERT_FILE_EXISTS | missing.txt", 2⟩]⟩]⟩]

/-- C2 scenario: a plan-only run over a benign pipeline on an empty tree. -/
def cfgC2ce : Config :=
  ⟨["proj"], ⟨[], []⟩, true, false, false, false, ["."], 500, 10000000⟩

def pipeC2ce : List Step :=
  [⟨"s1", [⟨"s.rw",
    [⟨"ASSERT_FILE_NOT_EXISTS", "x.txt", [], [], "ASSERT_FILE_NOT_EXISTS | x.txt", 1⟩]⟩]⟩]

/-- C3 scenario: `MOVE_FILE` whose destination equals its source, applied
to an existing file. -/
def cfgC3 : Config :=
  ⟨["proj"], ⟨[("f.txt", "data")], []⟩, false, false, false, false, ["."], 500, 10000000⟩

def pipeC3 : List Step :=
  [⟨"s1", [⟨"s.rw", [⟨"MOVE_FILE", "f.txt", ["f.txt"], [], "MOVE_FILE | f.txt | f.txt", 1⟩]⟩]⟩]

/-- C4 scenario: step A creates a new file, step B fails an existence
assertion; apply with backup and rollback-on-fail. -/
def cfgC4 : Config :=
  ⟨["proj"], ⟨[], []⟩, false, false, true, true, ["."], 500, 10000000⟩

def pipeC4 : List Step :=
  [⟨"A", [⟨"a.rw", [⟨"CREATE_FILE", "a.txt", ["hello"], [], "CREATE_FILE | a.txt | hello", 1⟩]⟩]⟩,
   ⟨"B", [⟨"b.rw",
     [⟨"ASSERT_FILE_EXISTS", "missing.txt", [], [], "ASSERT_FILE_EXISTS | missing.txt", 1⟩]⟩]⟩]

/-- C5 witness scenario. -/
def cfgC5w : Config :=
  ⟨["proj"], ⟨[("f.txt", "data")], []⟩, false, false, false, false, ["."], 500, 10000000⟩

def cmdC5w : RWCommand := ⟨"MOVE_FILE", "f.txt", ["f.txt"], [], "MOVE_FILE | f.txt | f.txt", 1⟩

/-- C7 scenarios: multiline `^b$` replacement, non-strict and strict. -/
def cfgC7a : Config :=
  ⟨["proj"], ⟨[("f.txt", "a\nb\nc\n")], []⟩, false, false, false, false, ["."], 500, 10000000⟩

def cfgC7s : Config :=
  ⟨["proj"], ⟨[("f.txt", "a\nc\n")], []⟩, false, true, false, false, ["."], 500, 10000000⟩

def cmdC7 : RWCommand := (mkCmd 1 "REPLACE_REGEX | f.txt | ^b$ | B").getD default

/-- C9 scenarios: assertions against a path with no file anywhere. -/
def cfgC9 : Config :=
  ⟨["proj"], ⟨[], []⟩, false, false, false, false, ["."], 500, 10000000⟩

def cmdC9ce : RWCommand :=
  ⟨"ASSERT_FILE_EXISTS", "missing.txt", [], [], "ASSERT_FILE_EXISTS | missing.txt", 1⟩

/-- C10 scenario: `CREATE_FILE` with an empty decoded payload on an absent
path, applied. -/
def cfgC10 : Config :=
  ⟨["proj"], ⟨[], []⟩, false, false, false, false, ["."], 500, 10000000⟩

def pipeC10 : List Step :=
  [⟨"s1", [⟨"s.rw", [(mkCmd 1 "CREATE_FILE | e.txt").getD default]⟩]⟩]

/-! ## Supporting lemmas -/

theorem lookupA_setA {α : Type} (m : Assoc α) (k : String) (v : α) (p : String) :
    lookupA (setA m k v) p = if k = p then some v else lookupA m p := by
  induction m with
  | nil =>
    by_cases h : k = p
    · simp [setA, lookupA, h]
    · simp [setA, lookupA, h, fun hpk : p = k => h hpk.symm]
  | cons kv rest ih =>
    by_cases h1 : kv.1 = k
    · by_cases h2 : k = p
      · simp [setA, lookupA, h1, h2]
      · have h3 : ¬ kv.1 = p := fun hp => h2 (h1.symm.trans hp)
        simp [setA, lookupA, h1, h2, h3]
    · by_cases h2 : kv.1 = p
      · have h3 : ¬ k = p := fun hk => h1 (h2.trans hk.symm)
        have h4 : ¬ p = k := fun hpk => h3 hpk.symm
        simp [setA, lookupA, h1, h2, h3, h4]
      · simp [setA, lookupA, h1, h2, ih]

theorem lookupA_eraseA {α : Type} (m : Assoc α) (k p : String) :
    lookupA (eraseA m k) p = if k = p then none else lookupA m p := by
  induction m with
  | nil => simp [eraseA, lookupA]
  | cons kv rest ih =>
    by_cases h1 : kv.1 = k
    · by_cases h2 : k = p
      · have h3 : kv.1 = p := h1.trans h2
        simp [eraseA, List.filter, lookupA, h1, h2, h3] at ih ⊢
        simpa [h2] using ih
      · simp [eraseA, List.filter, lookupA, h1, h2] at ih ⊢
        exact ih
    · by_cases h2 : kv.1 = p
      · have h3 : ¬ k = p := fun hk => h1 (h2.trans hk.symm)
        have h4 : ¬ p = k := fun hpk => h3 hpk.symm
        simp [eraseA, List.filter, lookupA, h1, h2, h3, h4]
      · simp [eraseA, List.filter, lookupA, h1, h2] at ih ⊢
        exact ih

theorem fs_addErr (a : ScriptAcc) (e : Err) : (addErr a e).fs = a.fs := rfl

theorem fs_opRecord (a : ScriptAcc) (rel : String) (c : RWCommand) (k : Int) :
    (opRecord a rel c k).fs = a.fs := rfl

theorem fs_ensureFileEntry (a : ScriptAcc) (rel : String) :
    (ensureFileEntry a rel).fs = a.fs := rfl

theorem fs_feSetChanged (a : ScriptAcc) (rel : String) : (feSetChanged a rel).fs = a.fs := rfl

theorem fs_feSetNew (a : ScriptAcc) (rel : String) : (feSetNew a rel).fs = a.fs := rfl

theorem fs_feSetDeleted (a : ScriptAcc) (rel : String) : (feSetDeleted a rel).fs = a.fs := rfl

theorem setFileText_deleted (d : Disk) (st : VfsState) (rel t : String) (b : Bool) :
    (setFileText d st rel t b).deleted = st.deleted.filter (· ≠ rel_norm rel) := by
  simp only [setFileText]
  split <;> split <;> rfl

theorem setFileText_vfs (d : Disk) (st : VfsState) (rel t : String) (b : Bool) :
    (setFileText d st rel t b).vfs = st.vfs.setA (rel_norm rel) t := by
  simp only [setFileText]
  split <;> split <;> rfl

theorem InvVD_setFileText (d : Disk) (st : VfsState) (rel t : String) (b : Bool)
    (h : InvVD st) : InvVD (setFileText d st rel t b) := by
  intro p hp
  rw [setFileText_deleted] at hp
  rw [setFileText_vfs, lookupA_setA]
  rcases List.mem_filter.mp hp with ⟨hmem, hne⟩
  have hne' : rel_norm rel ≠ p := by
    intro he
    simp [he] at hne
  rw [if_neg hne']
  exact h p hmem

theorem InvVD_deleteFileText (d : Disk) (st : VfsState) (rel : String)
    (h : InvVD st) : InvVD (deleteFileText d st rel).1 := by
  simp only [deleteFileText]
  split
  · exact h
  · split
    · exact h
    · split
      · exact h
      · intro p hp
        simp only at hp ⊢
        rw [lookupA_eraseA]
        by_cases hpr : rel_norm rel = p
        · simp [hpr]
        · rw [if_neg hpr]
          have hmem : p ∈ st.deleted := by
            by_cases hc : st.deleted.contains (rel_norm rel) = true
            · rwa [if_pos hc] at hp
            · rw [if_neg hc] at hp
              rcases List.mem_append.mp hp with hp | hp
              · exact hp
              · exact absurd (List.mem_singleton.mp hp).symm hpr
          exact h p hmem



section InvPreservation

attribute [local irreducible] setFileText deleteFileText

theorem InvVD_regexMutStep (cfg : Config) (ctx : Ctx) (acc : ScriptAcc) (cmd : RWCommand)
    (rel : String) (result : String × Int) (allow_noop : Bool)
    (h : InvVD acc.fs) : InvVD (regexMutStep cfg ctx acc cmd rel result allow_noop).fs := by
  simp only [regexMutStep]
  repeat' split
  all_goals
    first
    | exact h
    | exact InvVD_setFileText _ _ _ _ _ h

theorem InvVD_execAssertExists (ctx : Ctx) (acc : ScriptAcc) (cmd : RWCommand) (rel : String)
    (fe : Bool) (h : InvVD acc.fs) : InvVD (execAssertExists ctx acc cmd rel fe).fs := by
  simp only [execAssertExists]
  split <;> exact h

theorem InvVD_execAssertNotExists (ctx : Ctx) (acc : ScriptAcc) (cmd : RWCommand) (rel : String)
    (fe : Bool) (h : InvVD acc.fs) : InvVD (execAssertNotExists ctx acc cmd rel fe).fs := by
  simp only [execAssertNotExists]
  split <;> exact h

theorem InvVD_execScanFile (ctx : Ctx) (acc : ScriptAcc) (cmd : RWCommand) (rel : String)
    (ct : Option String) (h : InvVD acc.fs) : InvVD (execScanFile ctx acc cmd rel ct).fs := by
  simp only [execScanFile]
  split <;> exact h

theorem InvVD_execAssertRegex (ctx : Ctx) (acc : ScriptAcc) (cmd : RWCommand) (rel : String)
    (ct : Option String) (h : InvVD acc.fs) : InvVD (execAssertRegex ctx acc cmd rel ct).fs := by
  simp only [execAssertRegex]
  repeat' split
  all_goals exact h

theorem InvVD_execAssertNotRegex (ctx : Ctx) (acc : ScriptAcc) (cmd : RWCommand) (rel : String)
    (ct : Option String) (h : InvVD acc.fs) : InvVD (execAssertNotRegex ctx acc cmd rel ct).fs := by
  simp only [execAssertNotRegex]
  repeat' split
  all_goals exact h

theorem InvVD_execAssertRegexCount (ctx : Ctx) (acc : ScriptAcc) (cmd : RWCommand) (rel : String)
    (ct : Option String) (h : InvVD acc.fs) : InvVD (execAssertRegexCount ctx acc cmd rel ct).fs := by
  simp only [execAssertRegexCount]
  repeat' split
  all_goals exact h

theorem InvVD_execCreateFile (cfg : Config) (acc : ScriptAcc) (cmd : RWCommand) (rel : String)
    (ct : Option String) (h : InvVD acc.fs) : InvVD (execCreateFile cfg acc cmd rel ct).fs := by
  simp only [execCreateFile]
  repeat' split
  all_goals
    first
    | exact h
    | exact InvVD_setFileText _ _ _ _ _ h

theorem InvVD_execWriteFile (cfg : Config) (ctx : Ctx) (acc : ScriptAcc) (cmd : RWCommand)
    (rel : String) (ct : Option String) (h : InvVD acc.fs) :
    InvVD (execWriteFile cfg ctx acc cmd rel ct).fs := by
  simp only [execWriteFile]
  repeat' split
  all_goals
    first
    | exact h
    | exact InvVD_setFileText _ _ _ _ _ h

theorem InvVD_execUpsertFile (cfg : Config) (acc : ScriptAcc) (cmd : RWCommand)
    (rel : String) (ct : Option String) (h : InvVD acc.fs) :
    InvVD (execUpsertFile cfg acc cmd rel ct).fs := by
  simp only [execUpsertFile]
  repeat' split
  all_goals
    first
    | exact h
    | exact InvVD_setFileText _ _ _ _ _ h

theorem InvVD_execDeleteFile (cfg : Config) (ctx : Ctx) (acc : ScriptAcc) (cmd : RWCommand)
    (rel : String) (an : Bool) (h : InvVD acc.fs) :
    InvVD (execDeleteFile cfg ctx acc cmd rel an).fs := by
  simp only [execDeleteFile]
  repeat' split
  all_goals exact InvVD_deleteFileText _ _ _ h

theorem InvVD_execMoveFinish (cfg : Config) (ctx : Ctx) (acc : ScriptAcc) (cmd : RWCommand)
    (rel dst : String) (c1 : Int) (an : Bool) (h : InvVD acc.fs) :
    InvVD (execMoveFinish cfg ctx acc cmd rel dst c1 an).fs := by
  simp only [execMoveFinish]
  repeat' split
  all_goals
    first
    | exact h
    | exact InvVD_deleteFileText _ _ _ h

theorem InvVD_execMoveStage (cfg : Config) (ctx : Ctx) (acc : ScriptAcc) (cmd : RWCommand)
    (rel dst cur : String) (dt : Option String) (an : Bool) (h : InvVD acc.fs) :
    InvVD (execMoveStage cfg ctx acc cmd rel dst cur dt an).fs := by
  simp only [execMoveStage]
  split
  · split
    all_goals
      exact InvVD_execMoveFinish _ _ _ _ _ _ _ _ (InvVD_setFileText _ _ _ _ _ h)
  · exact InvVD_execMoveFinish _ _ _ _ _ _ _ _ h

theorem InvVD_execMoveCopy (cfg : Config) (ctx : Ctx) (acc : ScriptAcc) (cmd : RWCommand)
    (rel : String) (ct : Option String) (isd an : Bool) (h : InvVD acc.fs) :
    InvVD (execMoveCopy cfg ctx acc cmd rel ct isd an).fs := by
  simp only [execMoveCopy]
  repeat' split
  all_goals
    first
    | exact h
    | exact InvVD_execMoveStage _ _ _ _ _ _ _ _ _ h

theorem InvVD_execRegexOps (cfg : Config) (ctx : Ctx) (acc : ScriptAcc) (cmd : RWCommand)
    (rel : String) (ct : Option String) (an : Bool) (h : InvVD acc.fs) :
    InvVD (execRegexOps cfg ctx acc cmd rel ct an).fs := by
  simp only [execRegexOps]
  repeat' split
  all_goals
    first
    | exact h
    | exact InvVD_regexMutStep _ _ _ _ _ _ _ h

attribute [local irreducible] execAssertExists execAssertNotExists execScanFile
  execAssertRegex execAssertNotRegex execAssertRegexCount execCreateFile execWriteFile
  execUpsertFile execDeleteFile execMoveFinish execMoveStage execMoveCopy execRegexOps
  regexMutStep

theorem InvVD_execDispatch (cfg : Config) (ctx : Ctx) (acc : ScriptAcc) (cmd : RWCommand)
    (rel : String) (fe isd : Bool) (ct : Option String) (h : InvVD acc.fs) :
    InvVD (execDispatch cfg ctx acc cmd rel fe isd ct).fs := by
  unfold execDispatch
  by_cases h0 : belowMinArgs cmd = true
  · rw [if_pos h0]; exact h
  · rw [if_neg h0]
    by_cases h1 : cmd.op = "ASSERT_FILE_EXISTS"
    · rw [if_pos h1]; exact InvVD_execAssertExists _ _ _ _ _ h
    · rw [if_neg h1]
      by_cases h2 : cmd.op = "ASSERT_FILE_NOT_EXISTS"
      · rw [if_pos h2]; exact InvVD_execAssertNotExists _ _ _ _ _ h
      · rw [if_neg h2]
        by_cases h3 : cmd.op = "SCAN_FILE"
        · rw [if_pos h3]; exact InvVD_execScanFile _ _ _ _ _ h
        · rw [if_neg h3]
          by_cases h4 : cmd.op = "ASSERT_REGEX"
          · rw [if_pos h4]; exact InvVD_execAssertRegex _ _ _ _ _ h
          · rw [if_neg h4]
            by_cases h5 : cmd.op = "ASSERT_NOT_REGEX"
            · rw [if_pos h5]; exact InvVD_execAssertNotRegex _ _ _ _ _ h
            · rw [if_neg h5]
              by_cases h6 : cmd.op = "ASSERT_REGEX_COUNT"
              · rw [if_pos h6]; exact InvVD_execAssertRegexCount _ _ _ _ _ h
              · rw [if_neg h6]
                by_cases h7 : cmd.op = "CREATE_FILE"
                · rw [if_pos h7]; exact InvVD_execCreateFile _ _ _ _ _ h
                · rw [if_neg h7]
                  by_cases h8 : cmd.op = "WRITE_FILE"
                  · rw [if_pos h8]; exact InvVD_execWriteFile _ _ _ _ _ _ h
                  · rw [if_neg h8]
                    by_cases h9 : cmd.op = "UPSERT_FILE"
                    · rw [if_pos h9]; exact InvVD_execUpsertFile _ _ _ _ _ h
                    · rw [if_neg h9]
                      by_cases h10 : cmd.op = "DELETE_FILE"
                      · rw [if_pos h10]; exact InvVD_execDeleteFile _ _ _ _ _ _ h
                      · rw [if_neg h10]
                        by_cases h11 : (cmd.op = "MOVE_FILE" || cmd.op = "COPY_FILE") = true
                        · rw [if_pos h11]; exact InvVD_execMoveCopy _ _ _ _ _ _ _ _ h
                        · rw [if_neg h11]; exact InvVD_execRegexOps _ _ _ _ _ _ _ h

theorem InvVD_execGuarded (cfg : Config) (ctx : Ctx) (acc : ScriptAcc) (cmd0 : RWCommand)
    (rel : String) (h : InvVD acc.fs) : InvVD (execGuarded cfg ctx acc cmd0 rel).fs := by
  unfold execGuarded
  split
  · exact h
  · exact InvVD_execDispatch _ _ _ _ _ _ _ _ h

theorem InvVD_execCmd (cfg : Config) (ctx : Ctx) (acc : ScriptAcc) (c : RWCommand)
    (h : InvVD acc.fs) : InvVD (execCmd cfg ctx acc c).fs := by
  unfold execCmd
  split
  · exact h
  · exact InvVD_execGuarded _ _ _ _ _ h

end InvPreservation

theorem InvVD_execCmds (cfg : Config) (ctx : Ctx) (cmds : List RWCommand) :
    ∀ acc : ScriptAcc, InvVD acc.fs → InvVD (cmds.foldl (execCmd cfg ctx) acc).fs := by
  induction cmds with
  | nil => exact fun acc h => h
  | cons c rest ih => exact fun acc h => ih _ (InvVD_execCmd _ _ _ _ h)

theorem InvVD_runScripts (cfg : Config) (stepName : String) (scripts : List Script) :
    ∀ fs : VfsState, InvVD fs → InvVD (runScripts cfg stepName fs scripts).1 := by
  induction scripts with
  | nil => exact fun fs h => h
  | cons sc rest ih =>
    intro fs h
    have h1 : InvVD (runScript cfg stepName fs sc).1 :=
      InvVD_execCmds cfg ⟨stepName, sc.name⟩ sc.cmds ⟨fs, [], []⟩ h
    unfold runScripts
    rcases hsc : runScript cfg stepName fs sc with ⟨fs2, entry⟩
    rw [hsc] at h1
    dsimp only
    rcases hrest : runScripts cfg stepName fs2 rest with ⟨fs3, entries⟩
    have h2 := ih fs2 h1
    rw [hrest] at h2
    simpa using h2

theorem InvVD_runSteps (cfg : Config) (pipeline : List Step) :
    ∀ fs : VfsState, InvVD fs → InvVD (runSteps cfg fs pipeline).1 := by
  induction pipeline with
  | nil => exact fun fs h => h
  | cons step rest ih =>
    intro fs h
    unfold runSteps
    split
    · exact h
    · have h1 : InvVD (runScripts cfg step.name fs step.scripts).1 :=
        InvVD_runScripts cfg step.name step.scripts fs h
      rcases hsc : runScripts cfg step.name fs step.scripts with ⟨fs2, entries⟩
      rw [hsc] at h1
      dsimp only
      by_cases he : (stepErrsOf entries).isEmpty
      · simp only [he, Bool.not_true, if_neg, Bool.false_eq_true, if_false]
        rcases hrs : runSteps cfg fs2 rest with ⟨fs3, more3⟩
        have h2 := ih fs2 h1
        rw [hrs] at h2
        simpa [hrs] using h2
      · simp only [he, Bool.not_false, if_pos]
        exact h1

theorem splitCore_escape (l : List Char) : ∀ rest buf,
    splitCore (escapeRW l ++ rest) buf = splitCore rest (l.reverse ++ buf) := by
  induction l with
  | nil => intro rest buf; simp [escapeRW]
  | cons c t ih =>
    intro rest buf
    by_cases hp : c = '|'
    · subst hp
      simp [escapeRW, escChar, splitCore, ih]
    · by_cases hb : c = '\\'
      · subst hb
        simp [escapeRW, escChar, splitCore, ih]
      · have hgen : ∀ (rest2 : List Char) (buf2 : List Char),
            splitCore (c :: rest2) buf2 = splitCore rest2 (c :: buf2) := by
          intro rest2 buf2
          cases rest2 with
          | nil => simp [splitCore, hp, hb]
          | cons c2 r2 => simp [splitCore, hp, hb]
        simp [escapeRW, escChar, hp, hb, hgen, ih]


theorem splitCore_joinPipe : ∀ (fs : List (List Char)) (x : List Char),
    splitCore (joinPipe (List.map escapeRW (x :: fs))) [] = x :: fs := by
  intro fs
  induction fs with
  | nil =>
    intro x
    have h := splitCore_escape x [] []
    simpa [joinPipe, splitCore] using h
  | cons y t ih =>
    intro x
    have hx := splitCore_escape x ('|' :: joinPipe (List.map escapeRW (y :: t))) []
    simp only [List.map_cons] at hx ⊢
    rw [show joinPipe (escapeRW x :: escapeRW y :: List.map escapeRW t)
          = escapeRW x ++ '|' :: joinPipe (escapeRW y :: List.map escapeRW t) from rfl]
    rw [hx]
    have ihy := ih y
    simp only [List.map_cons] at ihy
    simp [splitCore, ihy]

theorem split_rw_fields_escape (fs : List (List Char)) (x : List Char) :
    split_rw_fields (String.mk (joinPipe (List.map escapeRW (x :: fs))))
      = (x :: fs).map (fun l => pyStrip (String.mk l)) := by
  unfold split_rw_fields
  rw [show (String.mk (joinPipe (List.map escapeRW (x :: fs)))).data
        = joinPipe (List.map escapeRW (x :: fs)) from rfl]
  rw [splitCore_joinPipe]


theorem fileExistsFlag_false (cfg : Config) (acc : ScriptAcc) (f : String)
    (hvfs : acc.fs.vfs.lookupA f = none)
    (hdisk : cfg.disk0.files.lookupA f = none)
    (hdir : cfg.disk0.dirs.contains f = false) :
    fileExistsFlag cfg acc f = false := by
  have hdir2 : ¬ (f ∈ cfg.disk0.dirs) := by simpa using hdir
  unfold fileExistsFlag existsInVfs Disk.existsPath
  simp [hvfs, hdisk, hdir2]

theorem curTextOf_none (cfg : Config) (acc : ScriptAcc) (f : String)
    (hnorm : rel_norm f = f)
    (hvfs : acc.fs.vfs.lookupA f = none)
    (hdisk : cfg.disk0.files.lookupA f = none)
    (hdir : cfg.disk0.dirs.contains f = false) :
    curTextOf cfg acc f = none := by
  have hdir2 : ¬ (f ∈ cfg.disk0.dirs) := by simpa using hdir
  unfold curTextOf isDirFlag getFileText Disk.readFileText Disk.existsPath Disk.isDir existsInVfs
  rw [hnorm]
  by_cases hdel : acc.fs.deleted.contains f <;> simp [hvfs, hdisk, hdir2, hdel]

theorem assert_exists_missing (cfg : Config) (ctx : Ctx) (ss : ScriptAcc)
    (f raw : String) (n : Nat)
    (hnorm : rel_norm f = f)
    (hallow : is_path_allowed f cfg.allow cfg.rootParts = true)
    (hvfs : ss.fs.vfs.lookupA f = none)
    (hdisk : cfg.disk0.files.lookupA f = none)
    (hdir : cfg.disk0.dirs.contains f = false) :
    (execCmd cfg ctx ss ⟨"ASSERT_FILE_EXISTS", f, [], [], raw, n⟩).errors
      = ss.errors ++ [⟨ctx.stepName, ctx.scriptName, f, n, "ASSERT_FILE_EXISTS",
          "ASSERT_FILE_EXISTS_FAILED", raw⟩] := by
  have hfe : fileExistsFlag cfg (ensureFileEntry ss f) f = false :=
    fileExistsFlag_false cfg (ensureFileEntry ss f) f hvfs hdisk hdir
  unfold execCmd
  rw [hnorm]
  rw [if_neg (by simp [hallow])]
  unfold execGuarded
  rw [show canonicalize_command (⟨"ASSERT_FILE_EXISTS", f, [], [], raw, n⟩ : RWCommand)
        = (⟨"ASSERT_FILE_EXISTS", f, [], [], raw, n⟩, none) from rfl]
  dsimp only
  unfold execDispatch
  rw [hfe]
  simp +decide [belowMinArgs, command_min_args, execAssertExists, addErr, opRecord, mkErr,
    ensureFileEntry]


theorem assert_not_exists_missing (cfg : Config) (ctx : Ctx) (ss : ScriptAcc)
    (f raw : String) (n : Nat)
    (hnorm : rel_norm f = f)
    (hallow : is_path_allowed f cfg.allow cfg.rootParts = true)
    (hvfs : ss.fs.vfs.lookupA f = none)
    (hdisk : cfg.disk0.files.lookupA f = none)
    (hdir : cfg.disk0.dirs.contains f = false) :
    (execCmd cfg ctx ss ⟨"ASSERT_FILE_NOT_EXISTS", f, [], [], raw, n⟩).errors = ss.errors := by
  have hfe : fileExistsFlag cfg (ensureFileEntry ss f) f = false :=
    fileExistsFlag_false cfg (ensureFileEntry ss f) f hvfs hdisk hdir
  unfold execCmd
  rw [hnorm]
  rw [if_neg (by simp [hallow])]
  unfold execGuarded
  rw [show canonicalize_command (⟨"ASSERT_FILE_NOT_EXISTS", f, [], [], raw, n⟩ : RWCommand)
        = (⟨"ASSERT_FILE_NOT_EXISTS", f, [], [], raw, n⟩, none) from rfl]
  dsimp only
  unfold execDispatch
  rw [hfe]
  simp +decide [belowMinArgs, command_min_args, execAssertNotExists, addErr, opRecord, mkErr,
    ensureFileEntry]

theorem assert_regex_missing (cfg : Config) (ctx : Ctx) (ss : ScriptAcc)
    (f pat raw : String) (n : Nat)
    (hnorm : rel_norm f = f)
    (hallow : is_path_allowed f cfg.allow cfg.rootParts = true)
    (hvfs : ss.fs.vfs.lookupA f = none)
    (hdisk : cfg.disk0.files.lookupA f = none)
    (hdir : cfg.disk0.dirs.contains f = false) :
    (execCmd cfg ctx ss ⟨"ASSERT_REGEX", f, [pat], [], raw, n⟩).errors
      = ss.errors ++ [⟨ctx.stepName, ctx.scriptName, f, n, "ASSERT_REGEX",
          "FILE_NOT_FOUND", raw⟩] := by
  have hct : curTextOf cfg (ensureFileEntry ss f) f = none :=
    curTextOf_none cfg (ensureFileEntry ss f) f hnorm hvfs hdisk hdir
  unfold execCmd
  rw [hnorm]
  rw [if_neg (by simp [hallow])]
  unfold execGuarded
  rw [show canonicalize_command (⟨"ASSERT_REGEX", f, [pat], [], raw, n⟩ : RWCommand)
        = (⟨"ASSERT_REGEX", f, [pat], [], raw, n⟩, none) from rfl]
  dsimp only
  unfold execDispatch
  rw [hct]
  simp +decide [belowMinArgs, command_min_args, execAssertRegex, addErr, opRecord, mkErr,
    ensureFileEntry]

theorem assert_not_regex_missing (cfg : Config) (ctx : Ctx) (ss : ScriptAcc)
    (f pat raw : String) (n : Nat)
    (hnorm : rel_norm f = f)
    (hallow : is_path_allowed f cfg.allow cfg.rootParts = true)
    (hvfs : ss.fs.vfs.lookupA f = none)
    (hdisk : cfg.disk0.files.lookupA f = none)
    (hdir : cfg.disk0.dirs.contains f = false) :
    (execCmd cfg ctx ss ⟨"ASSERT_NOT_REGEX", f, [pat], [], raw, n⟩).errors = ss.errors := by
  have hct : curTextOf cfg (ensureFileEntry ss f) f = none :=
    curTextOf_none cfg (ensureFileEntry ss f) f hnorm hvfs hdisk hdir
  unfold execCmd
  rw [hnorm]
  rw [if_neg (by simp [hallow])]
  unfold execGuarded
  rw [show canonicalize_command (⟨"ASSERT_NOT_REGEX", f, [pat], [], raw, n⟩ : RWCommand)
        = (⟨"ASSERT_NOT_REGEX", f, [pat], [], raw, n⟩, none) from rfl]
  dsimp only
  unfold execDispatch
  rw [hct]
  simp +decide [belowMinArgs, command_min_args, execAssertNotRegex, addErr, opRecord, mkErr,
    ensureFileEntry]

theorem assert_regex_count_missing (cfg : Config) (ctx : Ctx) (ss : ScriptAcc)
    (f pat cnt raw : String) (n : Nat)
    (hnorm : rel_norm f = f)
    (hallow : is_path_allowed f cfg.allow cfg.rootParts = true)
    (hvfs : ss.fs.vfs.lookupA f = none)
    (hdisk : cfg.disk0.files.lookupA f = none)
    (hdir : cfg.disk0.dirs.contains f = false) :
    (execCmd cfg ctx ss ⟨"ASSERT_REGEX_COUNT", f, [pat, cnt], [], raw, n⟩).errors
      = ss.errors ++ [⟨ctx.stepName, ctx.scriptName, f, n, "ASSERT_REGEX_COUNT",
          "FILE_NOT_FOUND", raw⟩] := by
  have hct : curTextOf cfg (ensureFileEntry ss f) f = none :=
    curTextOf_none cfg (ensureFileEntry ss f) f hnorm hvfs hdisk hdir
  unfold execCmd
  rw [hnorm]
  rw [if_neg (by simp [hallow])]
  unfold execGuarded
  rw [show canonicalize_command (⟨"ASSERT_REGEX_COUNT", f, [pat, cnt], [], raw, n⟩ : RWCommand)
        = (⟨"ASSERT_REGEX_COUNT", f, [pat, cnt], [], raw, n⟩, none) from rfl]
  dsimp only
  unfold execDispatch
  rw [hct]
  simp +decide [belowMinArgs, command_min_args, execAssertRegexCount, addErr, opRecord, mkErr,
    ensureFileEntry]


theorem lookupA_writeFileText (d : Disk) (k v p : String) :
    (d.writeFileText k v).files.lookupA p = if k = p then some v else d.files.lookupA p := by
  unfold Disk.writeFileText
  simp [lookupA_setA]

theorem limitErrs_isEmpty_iff (cfg : Config) (fs : VfsState) :
    (limitErrsOf cfg fs).isEmpty = true ↔
      (fs.changed.length ≤ cfg.maxFiles ∧ wroteBytesOf cfg fs ≤ cfg.maxTotalWriteBytes) := by
  unfold limitErrsOf
  by_cases h1 : fs.changed.length > cfg.maxFiles <;>
    by_cases h2 : wroteBytesOf cfg fs > cfg.maxTotalWriteBytes <;>
      simp [h1, h2] <;> omega

theorem errsPre_ne_commit_false (cfg : Config) (fs : VfsState) (errs : List Err)
    (h : errsPreOf cfg fs errs ≠ []) : commitCondOf cfg fs errs = false := by
  unfold errsPreOf at h
  unfold commitCondOf
  by_cases hg : (!cfg.planOnly && errs.isEmpty) = true
  · rw [if_pos hg] at h
    have herrs : errs = [] := by
      rcases Bool.and_eq_true_iff.mp hg with ⟨_, h2⟩
      exact List.isEmpty_iff.mp h2
    subst herrs
    simp only [List.nil_append] at h
    rw [hg]
    simp only [Bool.true_and]
    exact Bool.not_eq_true _ ▸ (by
      intro hcontra
      exact h (List.isEmpty_iff.mp hcontra))
  · rw [Bool.not_eq_true] at hg
    rw [hg]
    simp


/-! ## Claim theorems -/

/-- Claim C1 (amended).  In apply mode, when the report's error list is
non-empty at the commit phase (from a failed step or a limit violation),
no entry of `changed_files` outside the runner's own output area — the
always-rewritten summary file `data/index/changes-summary.md` and, in
backup mode, the history tree under `data/history/` (manifest, backups,
patch diffs, artifacts and the unconditional `runs.jsonl` append) — is
written to or removed from disk; and the staged VFS effects are committed
exactly when the error list at the commit gate is empty and both the
`max_files` and `max_total_write_bytes` limits hold.  The frame conclusion
carves out both output areas; the history writes themselves live outside
the modelled disk map (see `finalDisk`). -/
theorem commit_requires_clean_report (cfg : Config) (pipeline : List Step)
    (hap : cfg.planOnly = false) :
    ((runPipeline cfg pipeline).errorsPreCommit ≠ [] →
      ∀ p, p ∈ keys (runPipeline cfg pipeline).changedAtCommit → p ≠ summaryPath →
        strStartsWith p historyPrefix = false →
        (runPipeline cfg pipeline).disk.files.lookupA p = cfg.disk0.files.lookupA p) ∧
    ((runPipeline cfg pipeline).committed = true ↔
      ((runPipeline cfg pipeline).errorsAtCommit = [] ∧
       (runPipeline cfg pipeline).changedAtCommit.length ≤ cfg.maxFiles ∧
       (runPipeline cfg pipeline).wroteBytes ≤ cfg.maxTotalWriteBytes)) := by
  unfold runPipeline
  rcases hrs : runSteps cfg VfsState.empty pipeline with ⟨fs, se, errs⟩
  dsimp only [mkRunResult]
  constructor
  · intro hne p _hmem hp _hhist
    have hcc : commitCondOf cfg fs errs = false := errsPre_ne_commit_false cfg fs errs hne
    unfold finalDisk diskAfterCommit
    rw [hcc]
    simp only [Bool.false_eq_true, if_false]
    rw [lookupA_writeFileText, if_neg (fun h : summaryPath = p => hp h.symm)]
  · unfold commitCondOf
    rw [hap]
    simp only [Bool.not_false, Bool.true_and, Bool.and_eq_true]
    rw [List.isEmpty_iff]
    constructor
    · rintro ⟨h1, h2⟩
      exact ⟨h1, (limitErrs_isEmpty_iff cfg fs).mp h2⟩
    · rintro ⟨h1, h2⟩
      exact ⟨h1, (limitErrs_isEmpty_iff cfg fs).mpr h2⟩

/-- Witness for C1's amended theorem at a concrete failing apply run. -/
theorem commit_requires_clean_report_witness :
    (runPipeline cfgC1w pipeC1w).disk.files.lookupA "a.txt"
      = cfgC1w.disk0.files.lookupA "a.txt" :=
  (commit_requires_clean_report cfgC1w pipeC1w rfl).1 (by decide) "a.txt"
    (by decide) (by decide) (by decide)

/-- Counterexample to C1 as stated: in a failed apply run whose staged
changes include the summary file itself, that `changed_files` entry is
still written on disk (by the unconditional summary rewrite). -/
theorem failed_run_still_rewrites_summary_entry :
    (runPipeline cfgC1ce pipeC1ce).errorsPreCommit ≠ [] ∧
    summaryPath ∈ keys (runPipeline cfgC1ce pipeC1ce).changedAtCommit ∧
    (runPipeline cfgC1ce pipeC1ce).disk.files.lookupA summaryPath
      ≠ cfgC1ce.disk0.files.lookupA summaryPath :=
  ⟨by decide, by decide, by decide⟩

/-- Claim C2 (amended).  A plan-only run leaves every path other than the
always-rewritten summary file `data/index/changes-summary.md` byte-for-byte
unchanged on disk (and creates or deletes no directories). -/
theorem plan_mode_touches_only_summary (cfg : Config) (pipeline : List Step)
    (hplan : cfg.planOnly = true) (p : String) (hp : p ≠ summaryPath) :
    (runPipeline cfg pipeline).disk.files.lookupA p = cfg.disk0.files.lookupA p ∧
    (runPipeline cfg pipeline).disk.dirs = cfg.disk0.dirs := by
  unfold runPipeline
  rcases hrs : runSteps cfg VfsState.empty pipeline with ⟨fs, se, errs⟩
  dsimp only [mkRunResult]
  unfold finalDisk diskAfterCommit commitCondOf
  rw [hplan]
  have hsp : summaryPath ≠ p := fun h => hp h.symm
  constructor
  · rw [lookupA_writeFileText, if_neg hsp]
    simp
  · simp [Disk.writeFileText]

/-- Witness for C2's amended theorem at a concrete plan run. -/
theorem plan_mode_touches_only_summary_witness :
    (runPipeline cfgC2ce pipeC2ce).disk.files.lookupA "x.txt"
      = cfgC2ce.disk0.files.lookupA "x.txt" :=
  (plan_mode_touches_only_summary cfgC2ce pipeC2ce rfl "x.txt" (by decide)).1

/-- Counterexample to C2 as stated: a plan-only run is not byte-for-byte
identity on the filesystem, because `run_pipeline` always rewrites
`data/index/changes-summary.md`, creating it here. -/
theorem plan_run_changes_filesystem :
    (runPipeline cfgC2ce pipeC2ce).errors = [] ∧
    (runPipeline cfgC2ce pipeC2ce).disk ≠ cfgC2ce.disk0 :=
  ⟨by decide, by decide⟩

/-- Claim C3 is refuted by the code: `MOVE_FILE` with destination equal to
source is not a no-op.  The unguarded source deletion runs, the command
reports `changed = 1`, a `DEL` change is staged with no error, and after an
otherwise clean apply run the file is gone from disk. -/
theorem move_file_onto_itself_deletes_file :
    cfgC3.disk0.files.lookupA "f.txt" = some "data" ∧
    (runPipeline cfgC3 pipeC3).errors = [] ∧
    (runPipeline cfgC3 pipeC3).committed = true ∧
    (fileEntryOf (runPipeline cfgC3 pipeC3) 0 0 "f.txt").ops
      = [⟨1, "MOVE_FILE", 1⟩, ⟨1, "MOVE_FILE", 1⟩] ∧
    (fileEntryOf (runPipeline cfgC3 pipeC3) 0 0 "f.txt").is_deleted = true ∧
    (runPipeline cfgC3 pipeC3).disk.files.lookupA "f.txt" = none :=
  ⟨rfl, rfl, rfl, rfl, rfl, rfl⟩

/-- Counterexample to C4 as stated: with `rollback_on_fail` set, the failed
run marks rollback as attempted (restoring nothing), so the manifest's
terminal status is `FAILED_ROLLED_BACK`, not `FAILED_NO_ROLLBACK`. -/
theorem failed_step_status_is_rolled_back :
    (runPipeline cfgC4 pipeC4).historyStatus = some "FAILED_ROLLED_BACK" ∧
    ("FAILED_ROLLED_BACK" : String) ≠ "FAILED_NO_ROLLBACK" :=
  ⟨rfl, by decide⟩

/-- Claim C4 (amended).  In the two-step scenario (step A creates `a.txt`,
step B fails `ASSERT_FILE_EXISTS | missing.txt`) under apply with backup
and rollback-on-fail: `a.txt` is never created on disk, the run exits 1,
`by-path.jsonl` receives no record, and the terminal manifest status is
`FAILED_ROLLED_BACK` with an empty restore/remove list (rollback was
invoked but there were no on-disk writes to revert). -/
theorem rollback_scenario_amended :
    (runPipeline cfgC4 pipeC4).disk.files.lookupA "a.txt" = none ∧
    (runPipeline cfgC4 pipeC4).exitCode = 1 ∧
    (runPipeline cfgC4 pipeC4).byPathAppends = [] ∧
    (runPipeline cfgC4 pipeC4).historyStatus = some "FAILED_ROLLED_BACK" ∧
    (runPipeline cfgC4 pipeC4).rollbackAttempted = true ∧
    (runPipeline cfgC4 pipeC4).filesRestored = [] ∧
    (runPipeline cfgC4 pipeC4).filesRemoved = [] :=
  ⟨rfl, rfl, rfl, rfl, rfl, rfl, rfl⟩

/-- Claim C5.  The vfs/deleted disjointness invariant is preserved by the
two VFS primitives, by every engine dispatch, by whole command sequences,
and across an entire run's step phase. -/
theorem vfs_deleted_never_overlap (cfg : Config) (st : VfsState) (h : InvVD st) :
    (∀ rel t b, InvVD (setFileText cfg.disk0 st rel t b)) ∧
    (∀ rel, InvVD (deleteFileText cfg.disk0 st rel).1) ∧
    (∀ ctx cmd pf errs, InvVD (execCmd cfg ctx ⟨st, pf, errs⟩ cmd).fs) ∧
    (∀ ctx cmds pf errs, InvVD (List.foldl (execCmd cfg ctx) ⟨st, pf, errs⟩ cmds).fs) ∧
    (∀ pipeline, InvVD (runSteps cfg st pipeline).1) :=
  ⟨fun _rel t b => InvVD_setFileText _ _ _ t b h,
   fun _rel => InvVD_deleteFileText _ _ _ h,
   fun ctx cmd _pf _errs => InvVD_execCmd _ ctx _ cmd h,
   fun ctx cmds _pf _errs => InvVD_execCmds _ ctx cmds _ h,
   fun pipeline => InvVD_runSteps _ pipeline _ h⟩

/-- Witness for C5 at a concrete state and command. -/
theorem vfs_deleted_never_overlap_witness :
    InvVD (execCmd cfgC5w ctx0 ⟨VfsState.empty, [], []⟩ cmdC5w).fs :=
  (vfs_deleted_never_overlap cfgC5w VfsState.empty (by decide)).2.2.1 ctx0 cmdC5w [] []

/-- Claim C6.  The path guard accepts `p` iff the stripped `p` is
non-empty, not absolute, not drive-qualified, and the normalized lexical
join of the root with `p` keeps the root's components as a prefix; in
particular every accepted path resolves inside the root. -/
theorem path_guard_characterization (p : String) (root : List String) :
    is_path_safe p root = true ↔
      (pyStrip p ≠ "" ∧ strStartsWith (pyStrip p) "/" = false ∧
       driveQualified (pyStrip p) = false ∧
       root <+: resolveUnder root (pyStrip p)) := by
  unfold is_path_safe
  by_cases h1 : pyStrip p = "" <;> by_cases h2 : strStartsWith (pyStrip p) "/" <;>
    by_cases h3 : driveQualified (pyStrip p) <;>
      simp [h1, h2, h3, List.isPrefixOf_iff_prefix]

/-- Claim C7.  `REPLACE_REGEX | f.txt | ^b$ | B` on content `"a\nb\nc\n"`
yields `"a\nB\nc\n"` with `changed = 1` and no error (multiline
anchoring); the same command under strict mode on `"a\nc\n"` changes
nothing and errors with `STRICT_FAIL_EXPECTED_CHANGE`. -/
theorem replace_regex_multiline_scenario :
    (getFileText cfgC7a.disk0 (execCmd cfgC7a ctx0 acc0 cmdC7).fs "f.txt"
      = some "a\nB\nc\n") ∧
    (((execCmd cfgC7a ctx0 acc0 cmdC7).perFile.lookupA "f.txt").getD default).ops
      = [⟨1, "REPLACE_REGEX", 1⟩] ∧
    (execCmd cfgC7a ctx0 acc0 cmdC7).errors = [] ∧
    (execCmd cfgC7s ctx0 acc0 cmdC7).errors.map (fun e => e.error)
      = ["STRICT_FAIL_EXPECTED_CHANGE"] ∧
    getFileText cfgC7s.disk0 (execCmd cfgC7s ctx0 acc0 cmdC7).fs "f.txt" = some "a\nc\n" :=
  ⟨rfl, rfl, rfl, rfl, rfl⟩

/-- Claim C8.  The field splitter treats an unescaped `|` as separator
while `\|` and `\\` decode to a literal pipe and backslash: splitting the
escaped join of any non-empty field list returns exactly the stripped
fields, and parsing the field text `A \| B \\ C` yields the single field
`A | B \ C`. -/
theorem field_splitter_escape_roundtrip :
    (∀ (x : List Char) (fs : List (List Char)),
      split_rw_fields (String.mk (joinPipe (List.map escapeRW (x :: fs))))
        = (x :: fs).map (fun l => pyStrip (String.mk l))) ∧
    split_rw_fields "A \\| B \\\\ C" = ["A | B \\ C"] :=
  ⟨fun x fs => split_rw_fields_escape fs x, rfl⟩

/-- Counterexample to C9 as stated: `ASSERT_FILE_EXISTS` on a missing file
is an assertion that is not not-exists-shaped, yet it produces no
`FILE_NOT_FOUND` error (it errors with `ASSERT_FILE_EXISTS_FAILED`). -/
theorem assert_exists_missing_not_file_not_found :
    (execCmd cfgC9 ctx0 acc0 cmdC9ce).errors.map (fun e => e.error)
      = ["ASSERT_FILE_EXISTS_FAILED"] ∧
    ((execCmd cfgC9 ctx0 acc0 cmdC9ce).errors.all
      (fun e => e.error ≠ "FILE_NOT_FOUND")) = true :=
  ⟨rfl, by decide⟩

/-- Claim C9 (amended).  Against a path with no file in the overlay or on
disk: the content-reading assertions `ASSERT_REGEX` and
`ASSERT_REGEX_COUNT` error with `FILE_NOT_FOUND`; `ASSERT_FILE_EXISTS`
errors with `ASSERT_FILE_EXISTS_FAILED` (not `FILE_NOT_FOUND`); and the
not-shaped assertions `ASSERT_FILE_NOT_EXISTS` and `ASSERT_NOT_REGEX`
produce no error. -/
theorem assertions_on_missing_files (cfg : Config) (ctx : Ctx) (ss : ScriptAcc)
    (f pat cnt raw : String) (n : Nat)
    (hnorm : rel_norm f = f)
    (hallow : is_path_allowed f cfg.allow cfg.rootParts = true)
    (hvfs : ss.fs.vfs.lookupA f = none)
    (hdisk : cfg.disk0.files.lookupA f = none)
    (hdir : cfg.disk0.dirs.contains f = false) :
    ((execCmd cfg ctx ss ⟨"ASSERT_FILE_EXISTS", f, [], [], raw, n⟩).errors
        = ss.errors ++ [⟨ctx.stepName, ctx.scriptName, f, n, "ASSERT_FILE_EXISTS",
            "ASSERT_FILE_EXISTS_FAILED", raw⟩]) ∧
    ((execCmd cfg ctx ss ⟨"ASSERT_FILE_NOT_EXISTS", f, [], [], raw, n⟩).errors = ss.errors) ∧
    ((execCmd cfg ctx ss ⟨"ASSERT_REGEX", f, [pat], [], raw, n⟩).errors
        = ss.errors ++ [⟨ctx.stepName, ctx.scriptName, f, n, "ASSERT_REGEX",
            "FILE_NOT_FOUND", raw⟩]) ∧
    ((execCmd cfg ctx ss ⟨"ASSERT_NOT_REGEX", f, [pat], [], raw, n⟩).errors = ss.errors) ∧
    ((execCmd cfg ctx ss ⟨"ASSERT_REGEX_COUNT", f, [pat, cnt], [], raw, n⟩).errors
        = ss.errors ++ [⟨ctx.stepName, ctx.scriptName, f, n, "ASSERT_REGEX_COUNT",
            "FILE_NOT_FOUND", raw⟩]) :=
  ⟨assert_exists_missing cfg ctx ss f raw n hnorm hallow hvfs hdisk hdir,
   assert_not_exists_missing cfg ctx ss f raw n hnorm hallow hvfs hdisk hdir,
   assert_regex_missing cfg ctx ss f pat raw n hnorm hallow hvfs hdisk hdir,
   assert_not_regex_missing cfg ctx ss f pat raw n hnorm hallow hvfs hdisk hdir,
   assert_regex_count_missing cfg ctx ss f pat cnt raw n hnorm hallow hvfs hdisk hdir⟩

/-- Witness for C9's amended theorem at a concrete missing path. -/
theorem assertions_on_missing_files_witness :
    (execCmd cfgC9 ctx0 acc0 ⟨"ASSERT_REGEX", "missing.txt", ["x"], [], "r", 3⟩).errors
      = [⟨"step-1", "script.rw", "missing.txt", 3, "ASSERT_REGEX", "FILE_NOT_FOUND", "r"⟩] :=
  (assertions_on_missing_files cfgC9 ctx0 acc0 "missing.txt" "x" "2" "r" 3
    rfl (by decide) rfl rfl rfl).2.2.1

/-- Claim C10.  `CREATE_FILE` with an empty decoded payload on an absent
path reports `changed = 1` with `is_new = true`, yet stages no
`changed_files` entry; the error-free apply run commits and the file still
does not exist on disk afterwards. -/
theorem create_file_empty_payload_not_committed :
    (runPipeline cfgC10 pipeC10).errors = [] ∧
    (fileEntryOf (runPipeline cfgC10 pipeC10) 0 0 "e.txt").ops = [⟨1, "CREATE_FILE", 1⟩] ∧
    (fileEntryOf (runPipeline cfgC10 pipeC10) 0 0 "e.txt").is_new = true ∧
    (runPipeline cfgC10 pipeC10).changedAtCommit = [] ∧
    (runPipeline cfgC10 pipeC10).committed = true ∧
    (runPipeline cfgC10 pipeC10).disk.files.lookupA "e.txt" = none :=
  ⟨rfl, rfl, rfl, rfl, rfl, rfl⟩

end SvPatch
